import Mathlib

/-!
Verification of the crypto-arbitrage spread sniffer.

This file gives a shallow embedding, in Lean 4, of the parts of the
repository that the specification talks about:

* src/spreadSniffer.py — the net-spread formula, the two venue
  connector message handlers (Kraken, Coinbase), the reconnect backoff,
  the fee-refresh guard (ensure_fees) and the reporter/evaluator tick.
* src/fees.py — the FeeCache TTL cache and the per-venue fee fetchers.

Numbers (prices, fees, timestamps) are modelled as rationals; Python
floats carry exact decimal literals in all the scenarios of interest,
so rational arithmetic is the intended reading of the formulas.

Inbound websocket payloads are JSON values; we model the decoded value
with the inductive type Json below, and we model the relevant fragment
of Python semantics faithfully: truthiness, the membership test
(key in obj), subscripting, dict.get, iteration, and float coercion.
A raw frame that is not decodable JSON is modelled as Option.none.
Operations that raise a Python exception are modelled in the Except
monad: Except.error means the operation raised.
-/

namespace SpreadSniffer

/-- A decoded JSON value (the result of json.loads on a frame), as the
Python handlers see it: null, booleans, numbers (exact rationals),
strings, arrays and string-keyed objects. -/
inductive Json where
  | null : Json
  | bool (b : Bool) : Json
  | num (q : ℚ) : Json
  | str (s : String) : Json
  | arr (xs : List Json) : Json
  | obj (kvs : List (String × Json)) : Json

/-- List of characters hay starts with the list needle. -/
def charsStart : List Char → List Char → Bool
  | [], _ => true
  | _ :: _, [] => false
  | a :: as, b :: bs => a == b && charsStart as bs

/-- The list needle occurs contiguously inside hay (Python substring test). -/
def charsSub (needle : List Char) : List Char → Bool
  | [] => needle.isEmpty
  | b :: bs => charsStart needle (b :: bs) || charsSub needle bs

/-- Python substring containment on strings. -/
def strSub (needle hay : String) : Bool :=
  charsSub needle.toList hay.toList

/-- Python truthiness of a JSON value: None, False, 0, the empty
string, the empty list and the empty dict are falsy. -/
def truthy : Json → Bool
  | .null => false
  | .bool b => b
  | .num q => q != 0
  | .str s => s != ""
  | .arr xs => !xs.isEmpty
  | .obj kvs => !kvs.isEmpty

/-- Python membership test (key in value) for a string key: key lookup
on dicts, element equality on lists, substring test on strings;
raises TypeError on numbers, booleans and None. -/
def pyIn (key : String) : Json → Except Unit Bool
  | .obj kvs => .ok (kvs.lookup key).isSome
  | .arr xs => .ok (xs.any fun x => match x with | .str s => s == key | _ => false)
  | .str s => .ok (strSub key s)
  | _ => .error ()

/-- Python subscript value[key] with a string key: dict lookup (KeyError
when absent); raises TypeError on every other JSON shape. -/
def pySub (j : Json) (key : String) : Except Unit Json :=
  match j with
  | .obj kvs => match kvs.lookup key with
    | some v => .ok v
    | none => .error ()
  | _ => .error ()

/-- Python value.get(key): only dicts have the attribute, so every
other shape raises AttributeError; a missing key yields None. -/
def pyGet (j : Json) (key : String) : Except Unit Json :=
  match j with
  | .obj kvs => .ok ((kvs.lookup key).getD .null)
  | _ => .error ()

/-- Python value.get(key, default): as pyGet but with an explicit
default for a missing key. -/
def pyGetD (j : Json) (key : String) (d : Json) : Except Unit Json :=
  match j with
  | .obj kvs => .ok ((kvs.lookup key).getD d)
  | _ => .error ()

/-- Python value[0]: first element of a list; first character (as a
one-character string) of a nonempty string; TypeError on numbers,
booleans and None; KeyError on dicts (JSON objects have no key 0);
IndexError on the empty list or string. -/
def pyIndex0 : Json → Except Unit Json
  | .arr (x :: _) => .ok x
  | .arr [] => .error ()
  | .str s => match s.toList with
    | c :: _ => .ok (.str (String.mk [c]))
    | [] => .error ()
  | _ => .error ()

/-- Python iteration (for x in value): a list yields its elements, a
string its characters, a dict its keys; numbers, booleans and None
raise TypeError. -/
def pyIter : Json → Except Unit (List Json)
  | .arr xs => .ok xs
  | .str s => .ok (s.toList.map fun c => .str (String.mk [c]))
  | .obj kvs => .ok (kvs.map fun kv => .str kv.1)
  | _ => .error ()

/-- Equality of a JSON value with a Python string literal, as in the
connectors' comparisons msg.get("type") == "ticker". -/
def eqStr (j : Json) (s : String) : Bool :=
  match j with
  | .str t => t == s
  | _ => false

/-- Digits of a plain decimal literal folded into a natural number;
none when a non-digit character appears. -/
def digitsVal : List Char → Option ℕ
  | [] => some 0
  | c :: cs =>
    if c.isDigit then
      (digitsVal cs).map fun v => (c.toNat - 48) * 10 ^ cs.length + v
    else
      none

/-- Python float(s) on the plain decimal fragment of its grammar (an
optional sign, an integer part, an optional fractional part, with at
least one digit), which covers the venues' wire formats. Anything
outside that fragment is treated as unparseable. -/
def parseDecimal (s : String) : Option ℚ :=
  let cs := s.toList
  let signed : ℚ × List Char :=
    match cs with
    | '-' :: rest => (-1, rest)
    | '+' :: rest => (1, rest)
    | _ => (1, cs)
  let intPart := signed.2.takeWhile Char.isDigit
  let rest := signed.2.dropWhile Char.isDigit
  match rest with
  | [] =>
    if intPart.isEmpty then none
    else (digitsVal intPart).map fun v => signed.1 * v
  | '.' :: frac =>
    if intPart.isEmpty && frac.isEmpty then none
    else match digitsVal intPart, digitsVal frac with
      | some i, some f =>
        some (signed.1 * ((i : ℚ) + (f : ℚ) / (10 : ℚ) ^ frac.length))
      | _, _ => none
  | _ => none

/-- Python float(x) on a JSON value: numbers pass through, booleans
become 0 or 1, strings go through the decimal grammar; None, lists and
dicts raise TypeError. The result none models a raised exception. -/
def pyFloat : Json → Option ℚ
  | .num q => some q
  | .bool b => some (if b then 1 else 0)
  | .str s => parseDecimal s
  | _ => none

/-- The per-venue record of the global state dict in spreadSniffer.py:
bid, ask, last_ts (each starting as None), the msgs counter and the
connected flag. -/
structure VenueState where
  bid : Option ℚ
  ask : Option ℚ
  last_ts : Option ℚ
  msgs : ℕ
  connected : Bool
deriving DecidableEq

/-- The initial per-venue record. -/
def VenueState.init : VenueState :=
  ⟨none, none, none, 0, false⟩

/-- net_spread_buyA_sellB from spreadSniffer.py: net profit per unit
when buying at venue A's ask (paying A's taker fee) and selling at
venue B's bid (paying B's taker fee). -/
def net_spread_buyA_sellB (askA taker_fee_A bidB taker_fee_B : ℚ) : ℚ :=
  let buy_cost := askA * (1 + taker_fee_A)
  let sell_recv := bidB * (1 - taker_fee_B)
  sell_recv - buy_cost

/-- A log event emitted by a connector receive loop. -/
inductive ConnLog where
  | decodeErr
  | noLevels
  | summary (bid ask : ℚ)
  | evt
  | parseFail
deriving DecidableEq

/-- Result of handling one inbound frame: the venue state afterwards,
the log events emitted, whether an uncaught exception escaped the
per-message code (ending the receive loop and hence the connection),
and the handler's updated flag. State mutations made before a raise
persist, exactly as for the Python global state dict. -/
structure HandleResult where
  st : VenueState
  logs : List ConnLog
  raised : Bool
  updated : Bool
deriving DecidableEq

/-- top_price from kraken_loop: highest level of a bids/asks array,
accepting both the v2 dict shape and a positional pair; float() on an
unparseable price raises (modelled as Except.error). -/
def top_price (levels : Json) : Except Unit (Option ℚ) :=
  if truthy levels then
    match pyIndex0 levels with
    | .error e => .error e
    | .ok head =>
      match head with
      | .obj kvs =>
        match kvs.lookup "price" with
        | some v =>
          match pyFloat v with
          | some q => .ok (some q)
          | none => .error ()
        | none => .ok none
      | .arr (x :: _) =>
        match pyFloat x with
        | some q => .ok (some q)
        | none => .error ()
      | _ => .ok none
  else
    .ok none

/-- The elif arm of kraken_loop's message dispatch: heartbeats and
subscription acknowledgments are logged; anything else is ignored. -/
def kraken_elif (s : VenueState) (msg : Json) : HandleResult :=
  match msg with
  | .obj kvs =>
    let m := (kvs.lookup "method").getD .null
    let t := (kvs.lookup "type").getD .null
    if eqStr m "heartbeat" || eqStr t "subscribe" || eqStr t "subscribed" then
      ⟨s, [.evt], false, false⟩
    else
      ⟨s, [], false, false⟩
  | _ => ⟨s, [], false, false⟩

/-- One iteration of the async-for body of kraken_loop (lines
131-177 of spreadSniffer.py): msgs is incremented for every frame,
undecodable JSON is logged and skipped, a data packet has its top bid
and ask extracted and written, and everything else falls to the elif
arm. Any uncaught exception sets raised. -/
def kraken_on_message (s0 : VenueState) (now : ℚ) (raw : Option Json) : HandleResult :=
  let s := {s0 with msgs := s0.msgs + 1}
  match raw with
  | none => ⟨s, [.decodeErr], false, false⟩
  | some msg =>
    match pyIn "data" msg with
    | .error _ => ⟨s, [], true, false⟩
    | .ok hasData =>
      if hasData then
        match pySub msg "data" with
        | .error _ => ⟨s, [], true, false⟩
        | .ok dataJ =>
          if truthy dataJ then
            match pyIndex0 dataJ with
            | .error _ => ⟨s, [], true, false⟩
            | .ok ob =>
              match pyGetD ob "bids" (.arr []) with
              | .error _ => ⟨s, [], true, false⟩
              | .ok bids =>
                match pyGetD ob "asks" (.arr []) with
                | .error _ => ⟨s, [], true, false⟩
                | .ok asks =>
                  match top_price bids with
                  | .error _ => ⟨s, [], true, false⟩
                  | .ok new_bid =>
                    match top_price asks with
                    | .error _ => ⟨s, [], true, false⟩
                    | .ok new_ask =>
                      let s1 := match new_bid with
                        | some b => {s with bid := some b}
                        | none => s
                      let s2 := match new_ask with
                        | some a => {s1 with ask := some a}
                        | none => s1
                      if new_bid.isSome || new_ask.isSome then
                        let s3 := {s2 with last_ts := some now}
                        let logs :=
                          if s3.msgs % 50 == 0 && s3.bid.isSome && s3.ask.isSome then
                            [ConnLog.summary (s3.bid.getD 0) (s3.ask.getD 0)]
                          else []
                        ⟨s3, logs, false, true⟩
                      else
                        ⟨s2, [.noLevels], false, false⟩
          else kraken_elif s msg
      else kraken_elif s msg

/-- The inner try block of coinbase_loop applied to one ticker's
best_bid/best_ask fields: both must be truthy; float(bid) is assigned
before float(ask) is attempted, so a failing ask leaves a freshly
written bid behind; a float failure is caught and logged. -/
def cb_apply_tick (a : HandleResult) (bid ask : Json) : HandleResult :=
  if truthy bid && truthy ask then
    match pyFloat bid with
    | none => {a with logs := a.logs ++ [.parseFail]}
    | some qb =>
      let s1 := {a.st with bid := some qb}
      match pyFloat ask with
      | none => {a with st := s1, logs := a.logs ++ [.parseFail]}
      | some qa => {a with st := {s1 with ask := some qa}, updated := true}
  else a

/-- The for-t-in-tickers loop of coinbase_loop; t.get on a non-dict
raises out of the receive loop. -/
def cb_tickers_loop : HandleResult → List Json → HandleResult
  | a, [] => a
  | a, t :: rest =>
    match pyGet t "best_bid" with
    | .error _ => {a with raised := true}
    | .ok bid =>
      match pyGet t "best_ask" with
      | .error _ => {a with raised := true}
      | .ok ask => cb_tickers_loop (cb_apply_tick a bid ask) rest

/-- The for-ev-in-events loop of coinbase_loop: an event either nests
tickers or carries the fields directly; membership tests, subscripts
and iteration on unexpected shapes raise out of the receive loop. -/
def cb_events_loop : HandleResult → List Json → HandleResult
  | a, [] => a
  | a, ev :: rest =>
    match pyIn "tickers" ev with
    | .error _ => {a with raised := true}
    | .ok hasT =>
      if hasT then
        match pySub ev "tickers" with
        | .error _ => {a with raised := true}
        | .ok tks =>
          match pyIter tks with
          | .error _ => {a with raised := true}
          | .ok ts =>
            let r := cb_tickers_loop a ts
            if r.raised then r else cb_events_loop r rest
      else
        match pyGet ev "best_bid" with
        | .error _ => {a with raised := true}
        | .ok bid =>
          match pyGet ev "best_ask" with
          | .error _ => {a with raised := true}
          | .ok ask => cb_events_loop (cb_apply_tick a bid ask) rest

/-- The elif arm of coinbase_loop's dispatch: subscription confirms
and error frames are logged, anything else ignored; reached only when
msg.get("channel") already succeeded, so msg is a dict. -/
def coinbase_elif (s : VenueState) (msg : Json) : HandleResult :=
  match pyGet msg "type" with
  | .error _ => ⟨s, [], true, false⟩
  | .ok t =>
    if eqStr t "subscriptions" || eqStr t "error" then
      ⟨s, [.evt], false, false⟩
    else
      ⟨s, [], false, false⟩

/-- One iteration of the async-for body of coinbase_loop (lines
205-243 of spreadSniffer.py): msgs is incremented for every frame,
undecodable JSON is logged and skipped, ticker events update the
quote, and msg.get on a non-dict frame raises out of the loop. -/
def coinbase_on_message (s0 : VenueState) (now : ℚ) (raw : Option Json) : HandleResult :=
  let s := {s0 with msgs := s0.msgs + 1}
  match raw with
  | none => ⟨s, [.decodeErr], false, false⟩
  | some msg =>
    match pyGet msg "channel" with
    | .error _ => ⟨s, [], true, false⟩
    | .ok ch =>
      match pyIn "events" msg with
      | .error _ => ⟨s, [], true, false⟩
      | .ok hasEv =>
        if eqStr ch "ticker" && hasEv then
          match pySub msg "events" with
          | .error _ => ⟨s, [], true, false⟩
          | .ok evJ =>
            match pyIter evJ with
            | .error _ => ⟨s, [], true, false⟩
            | .ok evs =>
              let r := cb_events_loop ⟨s, [], false, false⟩ evs
              if r.raised then r
              else if r.updated then
                let s2 := {r.st with last_ts := some now}
                let logs2 :=
                  if s2.msgs % 50 == 0 then
                    [ConnLog.summary (s2.bid.getD 0) (s2.ask.getD 0)]
                  else []
                ⟨s2, r.logs ++ logs2, false, true⟩
              else r
        else coinbase_elif s msg

/-- A per-venue fee record as returned by the fee provider: the
{taker, maker} dict. -/
structure Fees where
  taker : ℚ
  maker : ℚ
deriving DecidableEq

/-- A log event emitted by one reporter_loop tick. -/
inductive RLog where
  | heartbeat (kconn : Bool) (kmsgs : ℕ) (cconn : Bool) (cmsgs : ℕ)
  | warnMissing
  | stale (venue : String) (age : ℚ)
  | alertKCB (net buy sell : ℚ)
  | alertCBK (net buy sell : ℚ)
  | spread (a_to_b b_to_a : ℚ)
deriving DecidableEq

/-- STALE_SECS from reporter_loop. -/
def STALE_SECS : ℚ := 5

/-- PROFIT_ALERT from reporter_loop (default threshold 0). -/
def PROFIT_ALERT : ℚ := 0

/-- The mutable locals of reporter_loop: last missing-data warning
time, last staleness warning time (shared by both venues), last
heartbeat time; all initialized to 0.0. -/
structure RState where
  last_warn_missing : ℚ
  last_warn_stale : ℚ
  last_hb : ℚ
deriving DecidableEq

/-- Initial reporter_loop locals. -/
def RState.init : RState :=
  ⟨0, 0, 0⟩

/-- The completeness check of reporter_loop: all four top-of-book
prices are present. -/
def have_all (k c : VenueState) : Bool :=
  k.bid.isSome && k.ask.isSome && c.bid.isSome && c.ask.isSome

/-- The staleness check of reporter_loop for one venue: warn when the
venue has ever been updated, its age exceeds STALE_SECS, and the
shared stale-warning rate limiter (3s) allows it. -/
def stale_check1 (now : ℚ) (v : VenueState) (name : String) (r : RState) :
    RState × List RLog :=
  match v.last_ts with
  | some t =>
    if now - t > STALE_SECS ∧ now - r.last_warn_stale > 3 then
      ({r with last_warn_stale := now}, [RLog.stale name (now - t)])
    else (r, [])
  | none => (r, [])

/-- The staleness loop of reporter_loop: Kraken is checked first, then
Coinbase, threading the shared rate-limiter state. -/
def stale_pair (now : ℚ) (k c : VenueState) (r : RState) : RState × List RLog :=
  let sk := stale_check1 now k "KRAKEN" r
  let sc := stale_check1 now c "COINBASE" sk.1
  (sc.1, sk.2 ++ sc.2)

/-- The spread/alert section of reporter_loop: runs only when all four
prices and both fee dicts are present; computes both directed net
spreads, alerts on each strictly above PROFIT_ALERT, then always logs
the spread summary. -/
def spread_section (kbid kask cbid cask : Option ℚ) (feesK feesC : Option Fees) :
    List RLog :=
  match kbid, kask, cbid, cask, feesK, feesC with
  | some kb, some ka, some cb, some ca, some fk, some fc =>
    let a_to_b := net_spread_buyA_sellB ka fk.taker cb fc.taker
    let b_to_a := net_spread_buyA_sellB ca fc.taker kb fk.taker
    (if a_to_b > PROFIT_ALERT then [RLog.alertKCB a_to_b ka cb] else []) ++
      (if b_to_a > PROFIT_ALERT then [RLog.alertCBK b_to_a ca kb] else []) ++
      [RLog.spread a_to_b b_to_a]
  | _, _, _, _, _, _ => []

/-- The connection-heartbeat section of reporter_loop: every 5s, log
both venues' connected flags and message counts. -/
def hb_section (now : ℚ) (k c : VenueState) (r : RState) : RState × List RLog :=
  if now - r.last_hb > 5 then
    ({r with last_hb := now},
      [RLog.heartbeat k.connected k.msgs c.connected c.msgs])
  else (r, [])

/-- The completeness-check section of reporter_loop: when any of the
four prices is missing and the 3s rate limiter allows, warn and
remember the warning time. -/
def missing_section (now : ℚ) (k c : VenueState) (r : RState) : RState × List RLog :=
  if have_all k c = false ∧ now - r.last_warn_missing > 3 then
    ({r with last_warn_missing := now}, [RLog.warnMissing])
  else (r, [])

/-- One steady-state tick of reporter_loop (lines 291-340 of
spreadSniffer.py), with the venue states and current fee dicts it
reads as inputs: heartbeat, completeness check with rate-limited
missing-data warning, per-venue staleness check with a shared
rate-limited warning, then the spread/alert section. The fee-refresh
call (ensure_fees) is modelled separately; feesK/feesC are the values
of _current_fees as the tick reads them. Wall-clock reads within one
tick are identified with the single instant now. -/
def reporter_tick (now : ℚ) (k c : VenueState) (feesK feesC : Option Fees)
    (r0 : RState) : RState × List RLog :=
  let hb := hb_section now k c r0
  let wm := missing_section now k c hb.1
  let sp := stale_pair now k c wm.1
  (sp.1, hb.2 ++ wm.2 ++ sp.2 ++
    spread_section k.bid k.ask c.bid c.ask feesK feesC)

/-- The inputs one reporter tick reads: the time and the shared state
visible at that tick. -/
structure TickIn where
  now : ℚ
  k : VenueState
  c : VenueState
  feesK : Option Fees
  feesC : Option Fees

/-- A run of reporter_loop over a sequence of tick inputs, returning
each tick's log output. -/
def reporter_run (r : RState) : List TickIn → List (List RLog)
  | [] => []
  | t :: rest =>
    let o := reporter_tick t.now t.k t.c t.feesK t.feesC r
    o.2 :: reporter_run o.1 rest

/-- The times of the ticks of a run that emit the missing-data
warning. -/
def missing_warn_times (r : RState) : List TickIn → List ℚ
  | [] => []
  | t :: rest =>
    let o := reporter_tick t.now t.k t.c t.feesK t.feesC r
    if RLog.warnMissing ∈ o.2 then t.now :: missing_warn_times o.1 rest
    else missing_warn_times o.1 rest

/-- Recognizer for staleness warnings among reporter log events. -/
def isStale : RLog → Bool
  | .stale _ _ => true
  | _ => false

/-- One time entry per staleness warning emitted in a run (two
warnings in one tick would contribute the same time twice). -/
def stale_times (r : RState) : List TickIn → List ℚ
  | [] => []
  | t :: rest =>
    let o := reporter_tick t.now t.k t.c t.feesK t.feesC r
    (o.2.filter isStale).map (fun _ => t.now) ++ stale_times o.1 rest

/-- _FEE_REFRESH_SECS from spreadSniffer.py: the evaluator re-queries
the fee provider at most on this cadence. -/
def FEE_REFRESH_SECS : ℚ := 60

/-- The module-level fee globals of spreadSniffer.py:
_last_fee_refresh (0.0 at boot) and the two _current_fees entries
(None at boot). -/
structure FeeGlobals where
  last_fee_refresh : ℚ
  kraken : Option Fees
  coinbase : Option Fees
deriving DecidableEq

/-- The boot values of the fee globals. -/
def FeeGlobals.init : FeeGlobals :=
  ⟨0, none, none⟩

/-- A log event emitted by ensure_fees. -/
inductive FeeLog where
  | feesLine (kr cb : Fees)
  | feesWarn
deriving DecidableEq

/-- ensure_fees from spreadSniffer.py (lines 257-282). The fetch
argument models the pair of awaits of fee_cache.get_fees for the two
venues: ok means both returned fee dicts, error means an exception
escaped one of them (it is caught here and logged). The Bool result
records whether the provider was queried on this tick. Note that
_last_fee_refresh is assigned only after both awaits succeed, so a
raising attempt leaves it unchanged. -/
def ensure_fees (now : ℚ) (fetch : Except Unit (Fees × Fees)) (g : FeeGlobals) :
    FeeGlobals × Bool × List FeeLog :=
  if now - g.last_fee_refresh < FEE_REFRESH_SECS then (g, false, [])
  else
    match fetch with
    | .error _ => (g, true, [.feesWarn])
    | .ok (kr, cb) =>
      let first := g.kraken = none ∨ g.coinbase = none
      let changed := some kr ≠ g.kraken ∨ some cb ≠ g.coinbase
      (⟨now, some kr, some cb⟩, true,
        if first ∨ changed then [.feesLine kr cb] else [])

/-- A run of evaluator ticks through ensure_fees: each tick supplies
its time and the outcome the provider would give; the times of the
ticks on which the provider is actually queried are collected. -/
def fee_query_times (g : FeeGlobals) :
    List (ℚ × Except Unit (Fees × Fees)) → List ℚ
  | [] => []
  | (t, f) :: rest =>
    let o := ensure_fees t f g
    if o.2.1 then t :: fee_query_times o.1 rest
    else fee_query_times o.1 rest

/-- One iteration of a connector's outer while-True loop, reduced to
its backoff arithmetic (identical in kraken_loop and coinbase_loop):
if the connection was established this iteration the counter resets
to 0; then the iteration ends (disconnect or failure), the counter is
incremented, and the reconnect delay is min(5 + tries, 20). -/
def conn_attempt (tries : ℕ) (connected : Bool) : ℕ × ℚ :=
  let t := (if connected then 0 else tries) + 1
  (t, min (5 + (t : ℚ)) 20)

/-- A connector run over a sequence of attempt outcomes (true = the
connection was established before dropping, false = the attempt
failed outright), collecting the reconnect delay waited after each
attempt. The loop retries unconditionally: every outcome yields a
delay and the run continues. -/
def conn_run (tries : ℕ) : List Bool → List ℚ
  | [] => []
  | ok :: rest =>
    let o := conn_attempt tries ok
    o.2 :: conn_run o.1 rest

/-- DEFAULT_FEES["kraken"] from fees.py. -/
def DEFAULT_FEES_kraken : Fees :=
  ⟨0.0026, 0.0016⟩

/-- DEFAULT_FEES["coinbase"] from fees.py. -/
def DEFAULT_FEES_coinbase : Fees :=
  ⟨0.0060, 0.0040⟩

/-- CACHE_TTL from fees.py. -/
def CACHE_TTL : ℚ := 3600

/-- The try-guarded extraction of one Kraken fee percentage:
float(res.get(field, {}).get(pair, {}).get("fee")) with every
exception caught and turned into None. -/
def kraken_fee_pct (res : Json) (field pair : String) : Option ℚ :=
  match res with
  | .obj kvs =>
    match (kvs.lookup field).getD (Json.obj []) with
    | .obj kvs2 =>
      match (kvs2.lookup pair).getD (Json.obj []) with
      | .obj kvs3 => pyFloat ((kvs3.lookup "fee").getD Json.null)
      | _ => none
    | _ => none
  | _ => none

/-- FeeCache._kraken_fees from fees.py (lines 96-136). auth models
KrakenAuth.from_env (error = it raised — missing key or secret in the
environment — caught by the surrounding try, which falls back to
defaults). sign models auth.trade_volume(pair) at fees.py line 108,
which sits OUTSIDE any try: KrakenAuth.sign runs
base64.b64decode(api_secret_b64), which raises binascii.Error on a
set-but-invalid secret, and that exception escapes get_fees
uncaught. http models the POST plus r.json() (error = either raised,
caught here; ok js = the decoded body). js.get("error") on a body
that is not a JSON object raises AttributeError, which nothing
catches. -/
def kraken_fees (pair : String) (auth : Except Unit Unit) (sign : Except Unit Unit)
    (http : Except Unit Json) : Except Unit Fees :=
  match auth with
  | .error _ => .ok DEFAULT_FEES_kraken
  | .ok _ =>
    match sign with
    | .error e => .error e
    | .ok _ =>
      match http with
      | .error _ => .ok DEFAULT_FEES_kraken
      | .ok js =>
        match js with
        | .obj kvs =>
          if truthy ((kvs.lookup "error").getD .null) then .ok DEFAULT_FEES_kraken
          else
            let res := (kvs.lookup "result").getD (.obj [])
            let taker_pct := kraken_fee_pct res "fees" pair
            let maker_pct := kraken_fee_pct res "fees_maker" pair
            .ok ⟨(taker_pct.map (· / 100)).getD DEFAULT_FEES_kraken.taker,
                 (maker_pct.map (· / 100)).getD DEFAULT_FEES_kraken.maker⟩
        | _ => .error ()

/-- FeeCache._coinbase_adv_fees from fees.py (lines 138-173). auth
models CoinbaseAdvAuth.from_env (error = it raised — e.g.
CB_ADV_PRIVATE_KEY unset, so pem.replace raises AttributeError —
caught by the surrounding try, which falls back to defaults). sign
models auth.api_url(path) plus auth.sign("GET", path) at fees.py
lines 151-152, which sit OUTSIDE the try: from_env never checks
api_key_id, so with a PEM present but CB_ADV_API_KEY unset,
sign's _require raises RuntimeError (and SigningKey.from_pem raises
on a malformed PEM); these escape get_fees uncaught. http models the
GET plus r.json() as in kraken_fees. js.get("fee_tier") on a
non-object body raises; a fee_tier that is not a dict falls back to
defaults; a float failure on either rate falls back to defaults. -/
def coinbase_adv_fees (auth : Except Unit Unit) (sign : Except Unit Unit)
    (http : Except Unit Json) : Except Unit Fees :=
  match auth with
  | .error _ => .ok DEFAULT_FEES_coinbase
  | .ok _ =>
    match sign with
    | .error e => .error e
    | .ok _ =>
      match http with
      | .error _ => .ok DEFAULT_FEES_coinbase
      | .ok js =>
        match js with
        | .obj kvs =>
          match (kvs.lookup "fee_tier").getD .null with
          | .obj tkvs =>
            match pyFloat ((tkvs.lookup "taker_fee_rate").getD (.num DEFAULT_FEES_coinbase.taker)) with
            | none => .ok DEFAULT_FEES_coinbase
            | some t =>
              match pyFloat ((tkvs.lookup "maker_fee_rate").getD (.num DEFAULT_FEES_coinbase.maker)) with
              | none => .ok DEFAULT_FEES_coinbase
              | some m => .ok ⟨t, m⟩
          | _ => .ok DEFAULT_FEES_coinbase
        | _ => .error ()

/-- The FeeCache instance state: the TTL it was constructed with and
the _cache dict from (exchange, pair) keys to (fees, stored-at). Dict
assignment is modelled by consing, with lookup taking the first
match. -/
structure FeeCacheSt where
  ttl : ℚ
  cache : List ((String × String) × (Fees × ℚ))
deriving DecidableEq

/-- A freshly constructed FeeCache(ttl_seconds). -/
def FeeCacheSt.init (ttl : ℚ) : FeeCacheSt :=
  ⟨ttl, []⟩

/-- FeeCache._get_cached: a hit younger than the TTL. -/
def get_cached (st : FeeCacheSt) (now : ℚ) (key : String × String) : Option Fees :=
  match st.cache.lookup key with
  | none => none
  | some (data, ts) => if now - ts < st.ttl then some data else none

/-- FeeCache._set_cached. -/
def set_cached (st : FeeCacheSt) (now : ℚ) (key : String × String) (fees : Fees) :
    FeeCacheSt :=
  {st with cache := (key, (fees, now)) :: st.cache}

/-- FeeCache.get_fees from fees.py (lines 72-93). The Bool result
records whether a venue fetch (the real signed endpoint) was
performed; a cache hit answers without fetching. An unknown exchange
raises ValueError; an exception escaping a venue fetcher (a signing
failure or a non-object response body) propagates, in both cases
before anything is stored. -/
def get_fees (st : FeeCacheSt) (now : ℚ) (exchange pair : String)
    (auth : Except Unit Unit) (sign : Except Unit Unit) (http : Except Unit Json) :
    Except Unit (Fees × FeeCacheSt × Bool) :=
  let ex := exchange.toLower
  let key := (ex, pair)
  match get_cached st now key with
  | some cached => .ok (cached, st, false)
  | none =>
    if ex = "kraken" then
      match kraken_fees pair auth sign http with
      | .error e => .error e
      | .ok fees => .ok (fees, set_cached st now key fees, true)
    else if ex = "coinbase" then
      match coinbase_adv_fees auth sign http with
      | .error e => .error e
      | .ok fees => .ok (fees, set_cached st now key fees, true)
    else .error ()

/-- C1: the net-spread function returns exactly
bidY*(1 - takerFeeY) - askX*(1 + takerFeeX), and at askX=100,
takerFeeX=0.001, bidY=100.5, takerFeeY=0.001 it returns 0.2995. -/
theorem C1_net_spread_formula :
    (∀ askX takerFeeX bidY takerFeeY : ℚ,
      net_spread_buyA_sellB askX takerFeeX bidY takerFeeY =
        bidY * (1 - takerFeeY) - askX * (1 + takerFeeX)) ∧
    net_spread_buyA_sellB 100 0.001 100.5 0.001 = 0.2995 := by
  constructor
  · intro askX takerFeeX bidY takerFeeY
    simp [net_spread_buyA_sellB]
  · norm_num [net_spread_buyA_sellB]

/-- Backoff delays of n consecutive outright-failed attempts starting
from a given counter value. -/
def fail_delays (tries : ℕ) (n : ℕ) : List ℚ :=
  conn_run tries (List.replicate n false)

theorem conn_run_replicate_cons (t n : ℕ) :
    conn_run t (List.replicate (n + 1) false) =
      min (5 + ((t + 1 : ℕ) : ℚ)) 20 :: conn_run (t + 1) (List.replicate n false) := by
  rfl

theorem fail_delays_chain (n t : ℕ) :
    (conn_run t (List.replicate n false)).Chain' (· ≤ ·) := by
  induction n generalizing t with
  | zero => simp [conn_run]
  | succ m ih =>
    cases m with
    | zero => simp [conn_run, List.replicate]
    | succ k =>
      rw [conn_run_replicate_cons, conn_run_replicate_cons]
      refine List.chain'_cons.mpr ⟨?_, ?_⟩
      · refine min_le_min ?_ le_rfl
        push_cast
        linarith
      · rw [← conn_run_replicate_cons]
        exact ih (t + 1)

/-- C6: over any sequence of consecutive outright failures the
reconnect delay is non-decreasing; the delay never exceeds the cap
20s; a successful connection resets the counter, so the next delay
equals the base (first-failure) delay 6s; and the loop retries
unconditionally, producing a delay (and another attempt) for every
outcome with no retry limit. -/
theorem C6_backoff_policy :
    (∀ t n : ℕ, (fail_delays t n).Chain' (· ≤ ·)) ∧
    (∀ (t : ℕ) (b : Bool), (conn_attempt t b).2 ≤ 20) ∧
    (∀ t : ℕ, conn_attempt t true = conn_attempt 0 false ∧ (conn_attempt t true).2 = 6) ∧
    (∀ (t : ℕ) (L : List Bool), (conn_run t L).length = L.length) := by
  refine ⟨fun t n => fail_delays_chain n t, fun t b => min_le_right _ _, fun t => ⟨rfl, ?_⟩, ?_⟩
  · show min (5 + ((0 + 1 : ℕ) : ℚ)) 20 = 6
    norm_num
  · intro t L
    induction L generalizing t with
    | nil => rfl
    | cons b rest ih => simp [conn_run, ih]

/-- C5 as stated fails on the code: when the pair of get_fees awaits
raises (here at t=60), the except arm of ensure_fees leaves
_last_fee_refresh unchanged, so the very next tick (t=60.25) queries
the provider again, 0.25s — far less than the 60s interval — after
the previous query. -/
theorem C5_counterexample :
    fee_query_times FeeGlobals.init
        [((60 : ℚ), Except.error ()),
         ((60.25 : ℚ), Except.ok (⟨1, 1⟩, ⟨1, 1⟩))] = [60, 60.25] ∧
      (60.25 : ℚ) - 60 < 60 := by
  constructor
  · with_unfolding_all rfl
  · norm_num

theorem fee_query_gap :
    ∀ (L : List (ℚ × Except Unit (Fees × Fees))) (g : FeeGlobals),
      (∀ p ∈ L, ∃ v, p.2 = Except.ok v) →
      ∀ t ∈ fee_query_times g L, t - g.last_fee_refresh ≥ 60 := by
  intro L
  induction L with
  | nil => intro g _ t ht; simp [fee_query_times] at ht
  | cons p rest ih =>
    intro g hok t ht
    obtain ⟨tq, f⟩ := p
    obtain ⟨v, hv⟩ := hok (tq, f) (List.mem_cons_self _ _)
    simp only at hv
    subst hv
    obtain ⟨kr, cb⟩ := v
    by_cases hlt : tq - g.last_fee_refresh < FEE_REFRESH_SECS
    · rw [show fee_query_times g ((tq, Except.ok (kr, cb)) :: rest) =
          fee_query_times g rest by
            simp [fee_query_times, ensure_fees, hlt]] at ht
      exact ih g (fun q hq => hok q (List.mem_cons_of_mem _ hq)) t ht
    · rw [show fee_query_times g ((tq, Except.ok (kr, cb)) :: rest) =
          tq :: fee_query_times ⟨tq, some kr, some cb⟩ rest by
            simp [fee_query_times, ensure_fees, hlt]] at ht
      rcases List.mem_cons.mp ht with h | h
      · subst h
        simpa [FEE_REFRESH_SECS] using le_of_not_lt hlt
      · have := ih ⟨tq, some kr, some cb⟩ (fun q hq => hok q (List.mem_cons_of_mem _ hq)) t h
        simp only at this
        have h2 : tq - g.last_fee_refresh ≥ 60 := by
          simpa [FEE_REFRESH_SECS] using le_of_not_lt hlt
        linarith

/-- C5 amended: as long as every refresh attempt returns without
raising, any two ticks on which ensure_fees queries the fee provider
lie at least the 60s refresh interval apart, regardless of tick rate;
a raising attempt, however, leaves the refresh timestamp unchanged
and the next tick retries immediately (see the counterexample). -/
theorem C5_fee_refresh_interval :
    ∀ (g : FeeGlobals) (L : List (ℚ × Except Unit (Fees × Fees))),
      (∀ p ∈ L, ∃ v, p.2 = Except.ok v) →
      (fee_query_times g L).Pairwise (fun a b => b - a ≥ 60) := by
  intro g L
  induction L generalizing g with
  | nil => intro _; simp [fee_query_times]
  | cons p rest ih =>
    intro hok
    obtain ⟨tq, f⟩ := p
    obtain ⟨v, hv⟩ := hok (tq, f) (List.mem_cons_self _ _)
    simp only at hv
    subst hv
    obtain ⟨kr, cb⟩ := v
    by_cases hlt : tq - g.last_fee_refresh < FEE_REFRESH_SECS
    · rw [show fee_query_times g ((tq, Except.ok (kr, cb)) :: rest) =
          fee_query_times g rest by
            simp [fee_query_times, ensure_fees, hlt]]
      exact ih g (fun q hq => hok q (List.mem_cons_of_mem _ hq))
    · rw [show fee_query_times g ((tq, Except.ok (kr, cb)) :: rest) =
          tq :: fee_query_times ⟨tq, some kr, some cb⟩ rest by
            simp [fee_query_times, ensure_fees, hlt]]
      refine List.pairwise_cons.mpr ⟨?_, ih ⟨tq, some kr, some cb⟩
        (fun q hq => hok q (List.mem_cons_of_mem _ hq))⟩
      intro t ht
      have := fee_query_gap rest ⟨tq, some kr, some cb⟩
        (fun q hq => hok q (List.mem_cons_of_mem _ hq)) t ht
      simpa using this

/-- Witness for the amended C5 theorem at a concrete two-tick run in
which both refresh attempts succeed. -/
theorem C5_fee_refresh_interval_witness :
    (fee_query_times FeeGlobals.init
        [((60 : ℚ), Except.ok (DEFAULT_FEES_kraken, DEFAULT_FEES_coinbase)),
         ((130 : ℚ), Except.ok (DEFAULT_FEES_kraken, DEFAULT_FEES_coinbase))]).Pairwise
      (fun a b => b - a ≥ 60) := by
  refine C5_fee_refresh_interval FeeGlobals.init _ ?_
  intro p hp
  rcases List.mem_cons.mp hp with h | h
  · exact ⟨_, by rw [h]⟩
  · rcases List.mem_cons.mp h with h2 | h2
    · exact ⟨_, by rw [h2]⟩
    · simp at h2

theorem mem_spread_section_shape (x : RLog) (kb ka cb ca : Option ℚ)
    (fk fc : Option Fees) (hx : x ∈ spread_section kb ka cb ca fk fc) :
    (∃ n b s, x = RLog.alertKCB n b s) ∨ (∃ n b s, x = RLog.alertCBK n b s) ∨
      (∃ a b, x = RLog.spread a b) := by
  rcases kb with _ | x1 <;> rcases ka with _ | x2 <;> rcases cb with _ | x3 <;>
    rcases ca with _ | x4 <;> rcases fk with _ | x5 <;> rcases fc with _ | x6 <;>
    simp only [spread_section, List.mem_append, List.not_mem_nil,
      List.mem_singleton] at hx
  rcases hx with (h | h) | h
  · split_ifs at h with hc
    · simp only [List.mem_singleton] at h
      exact Or.inl ⟨_, _, _, h⟩
    · simp at h
  · split_ifs at h with hc
    · simp only [List.mem_singleton] at h
      exact Or.inr (Or.inl ⟨_, _, _, h⟩)
    · simp at h
  · exact Or.inr (Or.inr ⟨_, _, h⟩)

theorem filter_isStale_spread_section (kb ka cb ca : Option ℚ) (fk fc : Option Fees) :
    (spread_section kb ka cb ca fk fc).filter isStale = [] := by
  rw [List.filter_eq_nil_iff]
  intro a ha
  rcases mem_spread_section_shape a kb ka cb ca fk fc ha with ⟨n, b, s, h⟩ | ⟨n, b, s, h⟩ | ⟨x, y, h⟩ <;>
    subst h <;> simp [isStale]

theorem stale_check1_cases (now : ℚ) (v : VenueState) (name : String) (r : RState) :
    stale_check1 now v name r = (r, []) ∨
      (∃ t, v.last_ts = some t ∧ now - t > STALE_SECS ∧ now - r.last_warn_stale > 3 ∧
        stale_check1 now v name r =
          ({r with last_warn_stale := now}, [RLog.stale name (now - t)])) := by
  unfold stale_check1
  rcases h : v.last_ts with _ | t
  · exact Or.inl rfl
  · dsimp only
    split_ifs with hc
    · exact Or.inr ⟨t, rfl, hc.1, hc.2, rfl⟩
    · exact Or.inl rfl

theorem stale_pair_cases (now : ℚ) (k c : VenueState) (r : RState) :
    stale_pair now k c r = (r, []) ∨
      (now - r.last_warn_stale > 3 ∧
        ∃ l, isStale l = true ∧
          stale_pair now k c r = ({r with last_warn_stale := now}, [l])) := by
  unfold stale_pair
  rcases stale_check1_cases now k "KRAKEN" r with h1 | ⟨t1, hts1, hage1, hrt1, h1⟩ <;>
    rw [h1] <;> simp only
  · rcases stale_check1_cases now c "COINBASE" r with h2 | ⟨t2, hts2, hage2, hrt2, h2⟩ <;>
      rw [h2] <;> simp only
    · exact Or.inl rfl
    · exact Or.inr ⟨hrt2, RLog.stale "COINBASE" (now - t2), by simp [isStale], rfl⟩
  · rcases stale_check1_cases now c "COINBASE" {r with last_warn_stale := now} with
      h2 | ⟨t2, hts2, hage2, hrt2, h2⟩
    · rw [h2]
      exact Or.inr ⟨hrt1, RLog.stale "KRAKEN" (now - t1), by simp [isStale], by simp⟩
    · exfalso
      simp only at hrt2
      linarith

theorem hb_section_fields (now : ℚ) (k c : VenueState) (r : RState) :
    (hb_section now k c r).1.last_warn_missing = r.last_warn_missing ∧
      (hb_section now k c r).1.last_warn_stale = r.last_warn_stale := by
  unfold hb_section
  split_ifs <;> simp

theorem missing_section_fields (now : ℚ) (k c : VenueState) (r : RState) :
    (missing_section now k c r).1.last_warn_stale = r.last_warn_stale ∧
      (missing_section now k c r).1.last_hb = r.last_hb := by
  unfold missing_section
  split_ifs <;> simp

theorem stale_pair_lwm (now : ℚ) (k c : VenueState) (r : RState) :
    (stale_pair now k c r).1.last_warn_missing = r.last_warn_missing := by
  rcases stale_pair_cases now k c r with h | ⟨_, l, _, h⟩ <;> rw [h]



theorem mem_hb_section_shape (x : RLog) (now : ℚ) (k c : VenueState) (r : RState)
    (hx : x ∈ (hb_section now k c r).2) :
    x = RLog.heartbeat k.connected k.msgs c.connected c.msgs := by
  unfold hb_section at hx
  split_ifs at hx <;> simp_all

theorem mem_missing_section_shape (x : RLog) (now : ℚ) (k c : VenueState) (r : RState)
    (hx : x ∈ (missing_section now k c r).2) : x = RLog.warnMissing := by
  unfold missing_section at hx
  split_ifs at hx <;> simp_all

theorem tick_mem_split (x : RLog) (now : ℚ) (k c : VenueState) (fk fc : Option Fees)
    (r : RState) :
    x ∈ (reporter_tick now k c fk fc r).2 ↔
      (x ∈ (hb_section now k c r).2 ∨
        x ∈ (missing_section now k c (hb_section now k c r).1).2 ∨
        x ∈ (stale_pair now k c (missing_section now k c (hb_section now k c r).1).1).2 ∨
        x ∈ spread_section k.bid k.ask c.bid c.ask fk fc) := by
  unfold reporter_tick
  simp [List.mem_append, or_assoc]

theorem mem_warnMissing_tick (now : ℚ) (k c : VenueState) (fk fc : Option Fees)
    (r : RState) :
    RLog.warnMissing ∈ (reporter_tick now k c fk fc r).2 ↔
      (have_all k c = false ∧ now - r.last_warn_missing > 3) := by
  rw [tick_mem_split]
  constructor
  · rintro (h | h | h | h)
    · exact absurd (mem_hb_section_shape _ _ _ _ _ h) (by simp)
    · unfold missing_section at h
      rw [(hb_section_fields now k c r).1] at h
      split_ifs at h with hc
      · exact hc
      · simp at h
    · rcases stale_pair_cases now k c
          (missing_section now k c (hb_section now k c r).1).1 with hsp | ⟨_, l, hl, hsp⟩ <;>
        rw [hsp] at h
      · simp at h
      · simp only [List.mem_singleton] at h
        subst h
        simp [isStale] at hl
    · rcases mem_spread_section_shape _ _ _ _ _ _ _ h with ⟨_, _, _, h2⟩ | ⟨_, _, _, h2⟩ | ⟨_, _, h2⟩ <;>
        simp at h2
  · intro hc
    refine Or.inr (Or.inl ?_)
    unfold missing_section
    rw [(hb_section_fields now k c r).1]
    rw [if_pos hc]
    simp

theorem tick_lwm (now : ℚ) (k c : VenueState) (fk fc : Option Fees) (r : RState) :
    (reporter_tick now k c fk fc r).1.last_warn_missing =
      if have_all k c = false ∧ now - r.last_warn_missing > 3 then now
      else r.last_warn_missing := by
  unfold reporter_tick
  simp only
  rw [stale_pair_lwm]
  unfold missing_section
  rw [(hb_section_fields now k c r).1]
  split_ifs <;> simp [(hb_section_fields now k c r).1]

theorem tick_stale_filter (now : ℚ) (k c : VenueState) (fk fc : Option Fees) (r : RState) :
    ((reporter_tick now k c fk fc r).2.filter isStale = [] ∧
      (reporter_tick now k c fk fc r).1.last_warn_stale = r.last_warn_stale) ∨
    (now - r.last_warn_stale > 3 ∧
      ∃ l, (reporter_tick now k c fk fc r).2.filter isStale = [l] ∧ isStale l = true ∧
        (reporter_tick now k c fk fc r).1.last_warn_stale = now) := by
  have hws : (missing_section now k c (hb_section now k c r).1).1.last_warn_stale =
      r.last_warn_stale := by
    rw [(missing_section_fields now k c _).1, (hb_section_fields now k c r).2]
  have hhb : (hb_section now k c r).2.filter isStale = [] := by
    unfold hb_section
    split_ifs <;> simp [isStale]
  have hwm : (missing_section now k c (hb_section now k c r).1).2.filter isStale = [] := by
    unfold missing_section
    split_ifs <;> simp [isStale]
  unfold reporter_tick
  simp only [List.filter_append, filter_isStale_spread_section, List.append_nil, hhb, hwm,
    List.nil_append]
  rcases stale_pair_cases now k c
      (missing_section now k c (hb_section now k c r).1).1 with hsp | ⟨hgt, l, hl, hsp⟩ <;>
    rw [hsp]
  · exact Or.inl ⟨rfl, hws⟩
  · refine Or.inr ⟨by rw [hws] at hgt; exact hgt, l, ?_, hl, rfl⟩
    simp [hl]



theorem missing_gap :
    ∀ (L : List TickIn) (r : RState), ∀ t ∈ missing_warn_times r L,
      t - r.last_warn_missing > 3 := by
  intro L
  induction L with
  | nil => intro r t ht; simp [missing_warn_times] at ht
  | cons x rest ih =>
    intro r t ht
    rw [show missing_warn_times r (x :: rest) =
        (if RLog.warnMissing ∈ (reporter_tick x.now x.k x.c x.feesK x.feesC r).2 then
          x.now :: missing_warn_times (reporter_tick x.now x.k x.c x.feesK x.feesC r).1 rest
        else missing_warn_times (reporter_tick x.now x.k x.c x.feesK x.feesC r).1 rest)
        from rfl] at ht
    by_cases hf : RLog.warnMissing ∈ (reporter_tick x.now x.k x.c x.feesK x.feesC r).2
    · rw [if_pos hf] at ht
      have hc := (mem_warnMissing_tick x.now x.k x.c x.feesK x.feesC r).mp hf
      rcases List.mem_cons.mp ht with h | h
      · subst h
        exact hc.2
      · have h2 := ih _ t h
        rw [tick_lwm, if_pos hc] at h2
        have := hc.2
        linarith
    · rw [if_neg hf] at ht
      have h2 := ih _ t ht
      have hc : ¬(have_all x.k x.c = false ∧ x.now - r.last_warn_missing > 3) :=
        fun hcc => hf ((mem_warnMissing_tick x.now x.k x.c x.feesK x.feesC r).mpr hcc)
      rw [tick_lwm, if_neg hc] at h2
      exact h2

theorem missing_pairwise (r : RState) (L : List TickIn) :
    (missing_warn_times r L).Pairwise (fun a b => b - a > 3) := by
  induction L generalizing r with
  | nil => simp [missing_warn_times]
  | cons x rest ih =>
    rw [show missing_warn_times r (x :: rest) =
        (if RLog.warnMissing ∈ (reporter_tick x.now x.k x.c x.feesK x.feesC r).2 then
          x.now :: missing_warn_times (reporter_tick x.now x.k x.c x.feesK x.feesC r).1 rest
        else missing_warn_times (reporter_tick x.now x.k x.c x.feesK x.feesC r).1 rest)
        from rfl]
    by_cases hf : RLog.warnMissing ∈ (reporter_tick x.now x.k x.c x.feesK x.feesC r).2
    · rw [if_pos hf]
      refine List.pairwise_cons.mpr ⟨?_, ih _⟩
      intro t ht
      have h2 := missing_gap rest _ t ht
      have hc := (mem_warnMissing_tick x.now x.k x.c x.feesK x.feesC r).mp hf
      rw [tick_lwm, if_pos hc] at h2
      exact h2
    · rw [if_neg hf]
      exact ih _

theorem stale_gap :
    ∀ (L : List TickIn) (r : RState), ∀ t ∈ stale_times r L,
      t - r.last_warn_stale > 3 := by
  intro L
  induction L with
  | nil => intro r t ht; simp [stale_times] at ht
  | cons x rest ih =>
    intro r t ht
    rw [show stale_times r (x :: rest) =
        ((reporter_tick x.now x.k x.c x.feesK x.feesC r).2.filter isStale).map (fun _ => x.now) ++
          stale_times (reporter_tick x.now x.k x.c x.feesK x.feesC r).1 rest from rfl] at ht
    rcases tick_stale_filter x.now x.k x.c x.feesK x.feesC r with ⟨hfil, hst⟩ | ⟨hgt, l, hfil, hl, hst⟩
    · rw [hfil] at ht
      simp only [List.map_nil, List.nil_append] at ht
      have h2 := ih _ t ht
      rw [hst] at h2
      exact h2
    · rw [hfil] at ht
      simp only [List.map_cons, List.map_nil, List.singleton_append] at ht
      rcases List.mem_cons.mp ht with h | h
      · subst h
        exact hgt
      · have h2 := ih _ t h
        rw [hst] at h2
        linarith

theorem stale_pairwise (r : RState) (L : List TickIn) :
    (stale_times r L).Pairwise (fun a b => b - a > 3) := by
  induction L generalizing r with
  | nil => simp [stale_times]
  | cons x rest ih =>
    rw [show stale_times r (x :: rest) =
        ((reporter_tick x.now x.k x.c x.feesK x.feesC r).2.filter isStale).map (fun _ => x.now) ++
          stale_times (reporter_tick x.now x.k x.c x.feesK x.feesC r).1 rest from rfl]
    rcases tick_stale_filter x.now x.k x.c x.feesK x.feesC r with ⟨hfil, hst⟩ | ⟨hgt, l, hfil, hl, hst⟩
    · rw [hfil]
      simp only [List.map_nil, List.nil_append]
      exact ih _
    · rw [hfil]
      simp only [List.map_cons, List.map_nil, List.singleton_append]
      refine List.pairwise_cons.mpr ⟨?_, ih _⟩
      intro t ht
      have h2 := stale_gap rest _ t ht
      rw [hst] at h2
      exact h2



theorem mem_stale_pair_isStale (x : RLog) (now : ℚ) (k c : VenueState) (r : RState)
    (hx : x ∈ (stale_pair now k c r).2) : isStale x = true := by
  rcases stale_pair_cases now k c r with h | ⟨_, l, hl, h⟩ <;> rw [h] at hx
  · simp at hx
  · simp only [List.mem_singleton] at hx
    subst hx
    exact hl

theorem mem_stale_check1 (x : RLog) (now : ℚ) (v : VenueState) (name : String)
    (r : RState) :
    x ∈ (stale_check1 now v name r).2 ↔
      ∃ t, v.last_ts = some t ∧ x = RLog.stale name (now - t) ∧
        now - t > STALE_SECS ∧ now - r.last_warn_stale > 3 := by
  unfold stale_check1
  rcases h : v.last_ts with _ | t
  · simp
  · dsimp only
    split_ifs with hc
    · simp only [List.mem_singleton]
      constructor
      · intro hx
        exact ⟨t, rfl, hx, hc.1, hc.2⟩
      · rintro ⟨t2, ht2, hx, _, _⟩
        rw [Option.some.injEq] at ht2
        subst ht2
        exact hx
    · simp only [List.not_mem_nil, false_iff]
      rintro ⟨t2, ht2, hx, h1, h2⟩
      rw [Option.some.injEq] at ht2
      subst ht2
      exact hc ⟨h1, h2⟩

theorem mem_stale_KRAKEN_pair (a : ℚ) (now : ℚ) (k c : VenueState) (r : RState) :
    RLog.stale "KRAKEN" a ∈ (stale_pair now k c r).2 ↔
      ∃ t, k.last_ts = some t ∧ a = now - t ∧ now - t > STALE_SECS ∧
        now - r.last_warn_stale > 3 := by
  unfold stale_pair
  simp only [List.mem_append]
  constructor
  · rintro (h | h)
    · rcases (mem_stale_check1 _ _ _ _ _).mp h with ⟨t, ht, hx, h1, h2⟩
      simp only [RLog.stale.injEq] at hx
      exact ⟨t, ht, hx.2, h1, h2⟩
    · rcases (mem_stale_check1 _ _ _ _ _).mp h with ⟨t, ht, hx, h1, h2⟩
      simp at hx
  · rintro ⟨t, ht, ha, h1, h2⟩
    subst ha
    exact Or.inl ((mem_stale_check1 _ _ _ _ _).mpr ⟨t, ht, rfl, h1, h2⟩)

theorem mem_stale_COINBASE_pair (a : ℚ) (now : ℚ) (k c : VenueState) (r : RState)
    (h : RLog.stale "COINBASE" a ∈ (stale_pair now k c r).2) :
    ∃ t, c.last_ts = some t ∧ a = now - t ∧ now - t > STALE_SECS := by
  unfold stale_pair at h
  simp only [List.mem_append] at h
  rcases h with h | h
  · rcases (mem_stale_check1 _ _ _ _ _).mp h with ⟨t, ht, hx, h1, h2⟩
    simp at hx
  · rcases (mem_stale_check1 _ _ _ _ _).mp h with ⟨t, ht, hx, h1, h2⟩
    simp only [RLog.stale.injEq] at hx
    exact ⟨t, ht, hx.2, h1⟩

theorem spread_section_nil (kb ka cb ca : Option ℚ) (fk fc : Option Fees)
    (h : (kb.isSome && ka.isSome && cb.isSome && ca.isSome) = false) :
    spread_section kb ka cb ca fk fc = [] := by
  rcases kb <;> rcases ka <;> rcases cb <;> rcases ca <;> simp_all [spread_section]



theorem mem_alertKCB_iff (n b s kb ka cb ca : ℚ) (fk fc : Fees) :
    RLog.alertKCB n b s ∈
        spread_section (some kb) (some ka) (some cb) (some ca) (some fk) (some fc) ↔
      n = net_spread_buyA_sellB ka fk.taker cb fc.taker ∧ b = ka ∧ s = cb ∧
        net_spread_buyA_sellB ka fk.taker cb fc.taker > PROFIT_ALERT := by
  simp only [spread_section, List.mem_append, List.mem_singleton]
  split_ifs with h1 h2 <;> simp_all

theorem mem_alertCBK_iff (n b s kb ka cb ca : ℚ) (fk fc : Fees) :
    RLog.alertCBK n b s ∈
        spread_section (some kb) (some ka) (some cb) (some ca) (some fk) (some fc) ↔
      n = net_spread_buyA_sellB ca fc.taker kb fk.taker ∧ b = ca ∧ s = kb ∧
        net_spread_buyA_sellB ca fc.taker kb fk.taker > PROFIT_ALERT := by
  simp only [spread_section, List.mem_append, List.mem_singleton]
  split_ifs with h1 h2 <;> simp_all

theorem mem_spread_iff (a b kb ka cb ca : ℚ) (fk fc : Fees) :
    RLog.spread a b ∈
        spread_section (some kb) (some ka) (some cb) (some ca) (some fk) (some fc) ↔
      a = net_spread_buyA_sellB ka fk.taker cb fc.taker ∧
        b = net_spread_buyA_sellB ca fc.taker kb fk.taker := by
  simp only [spread_section, List.mem_append, List.mem_singleton]
  split_ifs with h1 h2 <;> simp_all


/-- C2: on a tick where all four prices and both fee dicts are
present, an alert for a direction is in the tick output if and only
if that direction's net profit strictly exceeds the PROFIT_ALERT
threshold (0); the two directions are characterized independently, so
both, either or neither may alert; the alert names the net profit and
the two prices used. -/
theorem C2_alert_iff_threshold (now : ℚ) (k c : VenueState) (kb ka cb ca : ℚ)
    (fk fc : Fees) (r : RState)
    (hkb : k.bid = some kb) (hka : k.ask = some ka)
    (hcb : c.bid = some cb) (hca : c.ask = some ca) :
    (∀ n b s, RLog.alertKCB n b s ∈ (reporter_tick now k c (some fk) (some fc) r).2 ↔
       (n = net_spread_buyA_sellB ka fk.taker cb fc.taker ∧ b = ka ∧ s = cb ∧
         net_spread_buyA_sellB ka fk.taker cb fc.taker > PROFIT_ALERT)) ∧
    (∀ n b s, RLog.alertCBK n b s ∈ (reporter_tick now k c (some fk) (some fc) r).2 ↔
       (n = net_spread_buyA_sellB ca fc.taker kb fk.taker ∧ b = ca ∧ s = kb ∧
         net_spread_buyA_sellB ca fc.taker kb fk.taker > PROFIT_ALERT)) := by
  constructor <;> intro n b s <;> rw [tick_mem_split, hkb, hka, hcb, hca] <;> constructor
  · rintro (h | h | h | h)
    · exact absurd (mem_hb_section_shape _ _ _ _ _ h) (by simp)
    · exact absurd (mem_missing_section_shape _ _ _ _ _ h) (by simp)
    · have := mem_stale_pair_isStale _ _ _ _ _ h
      simp [isStale] at this
    · exact (mem_alertKCB_iff _ _ _ _ _ _ _ _ _).mp h
  · intro hc
    exact Or.inr (Or.inr (Or.inr ((mem_alertKCB_iff _ _ _ _ _ _ _ _ _).mpr hc)))
  · rintro (h | h | h | h)
    · exact absurd (mem_hb_section_shape _ _ _ _ _ h) (by simp)
    · exact absurd (mem_missing_section_shape _ _ _ _ _ h) (by simp)
    · have := mem_stale_pair_isStale _ _ _ _ _ h
      simp [isStale] at this
    · exact (mem_alertCBK_iff _ _ _ _ _ _ _ _ _).mp h
  · intro hc
    exact Or.inr (Or.inr (Or.inr ((mem_alertCBK_iff _ _ _ _ _ _ _ _ _).mpr hc)))

/-- Witness for C2 at the spec's end-to-end example: Kraken
bid=100.00/ask=100.10, Coinbase bid=100.80/ask=100.90, 0.001 taker
fees: the buy-Kraken-sell-Coinbase direction alerts with net 0.4991
and the reverse direction (net -1.0009) does not. -/
theorem C2_alert_iff_threshold_witness :
    RLog.alertKCB 0.4991 100.10 100.80 ∈
        (reporter_tick 1 ⟨some 100, some 100.10, some 0, 5, true⟩
          ⟨some 100.80, some 100.90, some 0, 5, true⟩
          (some ⟨0.001, 0.001⟩) (some ⟨0.001, 0.001⟩) RState.init).2 ∧
      RLog.alertCBK (-1.0009) 100.90 100 ∉
        (reporter_tick 1 ⟨some 100, some 100.10, some 0, 5, true⟩
          ⟨some 100.80, some 100.90, some 0, 5, true⟩
          (some ⟨0.001, 0.001⟩) (some ⟨0.001, 0.001⟩) RState.init).2 := by
  have h := C2_alert_iff_threshold 1 ⟨some 100, some 100.10, some 0, 5, true⟩
    ⟨some 100.80, some 100.90, some 0, 5, true⟩ 100 100.10 100.80 100.90
    ⟨0.001, 0.001⟩ ⟨0.001, 0.001⟩ RState.init rfl rfl rfl rfl
  constructor
  · exact (h.1 _ _ _).mpr ⟨by norm_num [net_spread_buyA_sellB], rfl, rfl,
      by norm_num [net_spread_buyA_sellB, PROFIT_ALERT]⟩
  · intro hmem
    have h4 := ((h.2 _ _ _).mp hmem).2.2.2
    norm_num [net_spread_buyA_sellB, PROFIT_ALERT] at h4



/-- C3: on a tick where any of the four prices is absent, no alert
and no spread computation appear in the output, and the missing-data
warning appears exactly when the 3s rate limiter allows it; over any
run, consecutive missing-data warnings are more than 3 seconds
apart. -/
theorem C3_missing_data_skip_and_rate_limit :
    (∀ (now : ℚ) (k c : VenueState) (fk fc : Option Fees) (r : RState),
      have_all k c = false →
        (∀ n b s, RLog.alertKCB n b s ∉ (reporter_tick now k c fk fc r).2) ∧
        (∀ n b s, RLog.alertCBK n b s ∉ (reporter_tick now k c fk fc r).2) ∧
        (∀ a b, RLog.spread a b ∉ (reporter_tick now k c fk fc r).2) ∧
        (RLog.warnMissing ∈ (reporter_tick now k c fk fc r).2 ↔
          now - r.last_warn_missing > 3)) ∧
    (∀ (r : RState) (L : List TickIn),
      (missing_warn_times r L).Pairwise (fun a b => b - a > 3)) := by
  constructor
  · intro now k c fk fc r h
    have hnil : spread_section k.bid k.ask c.bid c.ask fk fc = [] :=
      spread_section_nil _ _ _ _ _ _ h
    refine ⟨?_, ?_, ?_, ?_⟩
    · intro n b s hm
      rw [tick_mem_split] at hm
      rcases hm with hm | hm | hm | hm
      · exact absurd (mem_hb_section_shape _ _ _ _ _ hm) (by simp)
      · exact absurd (mem_missing_section_shape _ _ _ _ _ hm) (by simp)
      · have := mem_stale_pair_isStale _ _ _ _ _ hm
        simp [isStale] at this
      · rw [hnil] at hm
        simp at hm
    · intro n b s hm
      rw [tick_mem_split] at hm
      rcases hm with hm | hm | hm | hm
      · exact absurd (mem_hb_section_shape _ _ _ _ _ hm) (by simp)
      · exact absurd (mem_missing_section_shape _ _ _ _ _ hm) (by simp)
      · have := mem_stale_pair_isStale _ _ _ _ _ hm
        simp [isStale] at this
      · rw [hnil] at hm
        simp at hm
    · intro a b hm
      rw [tick_mem_split] at hm
      rcases hm with hm | hm | hm | hm
      · exact absurd (mem_hb_section_shape _ _ _ _ _ hm) (by simp)
      · exact absurd (mem_missing_section_shape _ _ _ _ _ hm) (by simp)
      · have := mem_stale_pair_isStale _ _ _ _ _ hm
        simp [isStale] at this
      · rw [hnil] at hm
        simp at hm
    · rw [mem_warnMissing_tick]
      simp [h]
  · exact missing_pairwise

/-- Witness for C3 at a concrete incomplete tick: Kraken's bid is
absent, so no spread line is emitted and the warning fires. -/
theorem C3_missing_data_skip_and_rate_limit_witness :
    (∀ a b, RLog.spread a b ∉
      (reporter_tick 10 ⟨none, some 1, none, 0, false⟩ ⟨some 1, some 1, none, 0, false⟩
        none none RState.init).2) ∧
      RLog.warnMissing ∈
        (reporter_tick 10 ⟨none, some 1, none, 0, false⟩ ⟨some 1, some 1, none, 0, false⟩
          none none RState.init).2 := by
  have h := C3_missing_data_skip_and_rate_limit.1 10 ⟨none, some 1, none, 0, false⟩ ⟨some 1, some 1, none, 0, false⟩
    none none RState.init rfl
  exact ⟨h.2.2.1, h.2.2.2.mpr (by norm_num [RState.init])⟩

/-- C8: a staleness warning for a venue appears only when that
venue's last_ts is set and its age strictly exceeds STALE_SECS (for
Kraken, checked first, the characterization is exact and includes the
shared 3s rate limiter); over any run the staleness warnings — across
both venues combined — are more than 3 seconds apart; and staleness
does not block spread computation: with all prices and fees present
the spread summary is emitted regardless of last_ts. -/
theorem C8_staleness_warnings :
    (∀ (now : ℚ) (k c : VenueState) (fk fc : Option Fees) (r : RState) (a : ℚ),
      RLog.stale "KRAKEN" a ∈ (reporter_tick now k c fk fc r).2 ↔
        ∃ t, k.last_ts = some t ∧ a = now - t ∧ now - t > STALE_SECS ∧
          now - r.last_warn_stale > 3) ∧
    (∀ (now : ℚ) (k c : VenueState) (fk fc : Option Fees) (r : RState) (a : ℚ),
      RLog.stale "COINBASE" a ∈ (reporter_tick now k c fk fc r).2 →
        ∃ t, c.last_ts = some t ∧ a = now - t ∧ now - t > STALE_SECS) ∧
    (∀ (r : RState) (L : List TickIn),
      (stale_times r L).Pairwise (fun a b => b - a > 3)) ∧
    (∀ (now : ℚ) (k c : VenueState) (kb ka cb ca : ℚ) (fk fc : Fees) (r : RState),
      k.bid = some kb → k.ask = some ka → c.bid = some cb → c.ask = some ca →
      RLog.spread (net_spread_buyA_sellB ka fk.taker cb fc.taker)
          (net_spread_buyA_sellB ca fc.taker kb fk.taker) ∈
        (reporter_tick now k c (some fk) (some fc) r).2) := by
  have hws : ∀ (now : ℚ) (k c : VenueState) (r : RState),
      (missing_section now k c (hb_section now k c r).1).1.last_warn_stale =
        r.last_warn_stale := by
    intro now k c r
    rw [(missing_section_fields now k c _).1, (hb_section_fields now k c r).2]
  refine ⟨?_, ?_, stale_pairwise, ?_⟩
  · intro now k c fk fc r a
    rw [tick_mem_split]
    constructor
    · rintro (h | h | h | h)
      · exact absurd (mem_hb_section_shape _ _ _ _ _ h) (by simp)
      · exact absurd (mem_missing_section_shape _ _ _ _ _ h) (by simp)
      · rcases (mem_stale_KRAKEN_pair _ _ _ _ _).mp h with ⟨t, ht, ha, h1, h2⟩
        rw [hws] at h2
        exact ⟨t, ht, ha, h1, h2⟩
      · rcases mem_spread_section_shape _ _ _ _ _ _ _ h with ⟨_, _, _, h2⟩ | ⟨_, _, _, h2⟩ | ⟨_, _, h2⟩ <;>
          simp at h2
    · rintro ⟨t, ht, ha, h1, h2⟩
      refine Or.inr (Or.inr (Or.inl ?_))
      rw [mem_stale_KRAKEN_pair]
      rw [hws]
      exact ⟨t, ht, ha, h1, h2⟩
  · intro now k c fk fc r a h
    rw [tick_mem_split] at h
    rcases h with h | h | h | h
    · exact absurd (mem_hb_section_shape _ _ _ _ _ h) (by simp)
    · exact absurd (mem_missing_section_shape _ _ _ _ _ h) (by simp)
    · exact mem_stale_COINBASE_pair _ _ _ _ _ h
    · rcases mem_spread_section_shape _ _ _ _ _ _ _ h with ⟨_, _, _, h2⟩ | ⟨_, _, _, h2⟩ | ⟨_, _, h2⟩ <;>
        simp at h2
  · intro now k c kb ka cb ca fk fc r hkb hka hcb hca
    rw [tick_mem_split, hkb, hka, hcb, hca]
    exact Or.inr (Or.inr (Or.inr ((mem_spread_iff _ _ _ _ _ _ _ _).mpr ⟨rfl, rfl⟩)))

/-- Witness for C8 at a concrete tick whose Kraken quote is 9s old
(threshold 5s): the staleness warning names KRAKEN and the age 9, and
the spread summary is still emitted on the same tick. -/
theorem C8_staleness_warnings_witness :
    RLog.stale "KRAKEN" 9 ∈
        (reporter_tick 10 ⟨some 1, some 2, some 1, 3, true⟩ ⟨some 3, some 4, some 9, 2, true⟩
          (some ⟨0.001, 0.001⟩) (some ⟨0.001, 0.001⟩) RState.init).2 ∧
      RLog.spread 0.995 (-3.005) ∈
        (reporter_tick 10 ⟨some 1, some 2, some 1, 3, true⟩ ⟨some 3, some 4, some 9, 2, true⟩
          (some ⟨0.001, 0.001⟩) (some ⟨0.001, 0.001⟩) RState.init).2 := by
  constructor
  · exact (C8_staleness_warnings.1 10 ⟨some 1, some 2, some 1, 3, true⟩ ⟨some 3, some 4, some 9, 2, true⟩
      (some ⟨0.001, 0.001⟩) (some ⟨0.001, 0.001⟩) RState.init 9).mpr
      ⟨1, rfl, by norm_num, by norm_num [STALE_SECS], by norm_num [RState.init]⟩
  · have h := C8_staleness_warnings.2.2.2 10 ⟨some 1, some 2, some 1, 3, true⟩
      ⟨some 3, some 4, some 9, 2, true⟩ 1 2 3 4 ⟨0.001, 0.001⟩ ⟨0.001, 0.001⟩ RState.init
      rfl rfl rfl rfl
    have e1 : net_spread_buyA_sellB 2 (0.001 : ℚ) 3 0.001 = 0.995 := by
      norm_num [net_spread_buyA_sellB]
    have e2 : net_spread_buyA_sellB 4 (0.001 : ℚ) 1 0.001 = -3.005 := by
      norm_num [net_spread_buyA_sellB]
    rw [e1, e2] at h
    exact h

theorem cb_apply_tick_msgs (a : HandleResult) (bid ask : Json) :
    (cb_apply_tick a bid ask).st.msgs = a.st.msgs := by
  unfold cb_apply_tick
  repeat' split
  all_goals rfl

theorem cb_tickers_loop_msgs :
    ∀ (ts : List Json) (a : HandleResult),
      (cb_tickers_loop a ts).st.msgs = a.st.msgs := by
  intro ts
  induction ts with
  | nil => intro a; rfl
  | cons t rest ih =>
    intro a
    unfold cb_tickers_loop
    cases h1 : pyGet t "best_bid" with
    | error e => rfl
    | ok bid =>
      cases h2 : pyGet t "best_ask" with
      | error e => rfl
      | ok ask => exact (ih (cb_apply_tick a bid ask)).trans (cb_apply_tick_msgs a bid ask)

theorem cb_events_loop_msgs :
    ∀ (evs : List Json) (a : HandleResult),
      (cb_events_loop a evs).st.msgs = a.st.msgs := by
  intro evs
  induction evs with
  | nil => intro a; rfl
  | cons ev rest ih =>
    intro a
    unfold cb_events_loop
    cases h1 : pyIn "tickers" ev with
    | error e => rfl
    | ok hasT =>
      cases hasT with
      | true =>
        dsimp only
        rw [if_pos rfl]
        cases h2 : pySub ev "tickers" with
        | error e => rfl
        | ok tks =>
          dsimp only
          cases h3 : pyIter tks with
          | error e => rfl
          | ok ts =>
            dsimp only
            split
            · exact cb_tickers_loop_msgs ts a
            · exact (ih _).trans (cb_tickers_loop_msgs ts a)
      | false =>
        dsimp only
        rw [if_neg Bool.false_ne_true]
        cases h2 : pyGet ev "best_bid" with
        | error e => rfl
        | ok bid =>
          dsimp only
          cases h3 : pyGet ev "best_ask" with
          | error e => rfl
          | ok ask =>
            dsimp only
            exact (ih _).trans (cb_apply_tick_msgs a bid ask)

theorem kraken_msgs (s : VenueState) (now : ℚ) (raw : Option Json) :
    (kraken_on_message s now raw).st.msgs = s.msgs + 1 := by
  unfold kraken_on_message kraken_elif
  cases raw with
  | none => rfl
  | some msg =>
    dsimp only
    repeat' split
    all_goals rfl

theorem coinbase_msgs (s : VenueState) (now : ℚ) (raw : Option Json) :
    (coinbase_on_message s now raw).st.msgs = s.msgs + 1 := by
  unfold coinbase_on_message coinbase_elif
  cases raw with
  | none => rfl
  | some msg =>
    dsimp only
    repeat' split
    all_goals (first
      | rfl
      | rw [cb_events_loop_msgs])



theorem cb_apply_tick_eq (a : HandleResult) (bid ask : Json) (qb qa : ℚ)
    (hb : truthy bid = true) (ha : truthy ask = true)
    (hqb : pyFloat bid = some qb) (hqa : pyFloat ask = some qa) :
    cb_apply_tick a bid ask =
      {a with st := {a.st with bid := some qb, ask := some qa}, updated := true} := by
  unfold cb_apply_tick
  simp [hb, ha, hqb, hqa]

theorem kraken_update_eq (s : VenueState) (now : ℚ) (msg dataJ ob bids asks : Json)
    (nb na : Option ℚ)
    (h1 : pyIn "data" msg = .ok true) (h2 : pySub msg "data" = .ok dataJ)
    (h3 : truthy dataJ = true) (h4 : pyIndex0 dataJ = .ok ob)
    (h5 : pyGetD ob "bids" (.arr []) = .ok bids)
    (h6 : pyGetD ob "asks" (.arr []) = .ok asks)
    (h7 : top_price bids = .ok nb) (h8 : top_price asks = .ok na)
    (h9 : (nb.isSome || na.isSome) = true) :
    (kraken_on_message s now (some msg)).st.bid = nb.or s.bid ∧
      (kraken_on_message s now (some msg)).st.ask = na.or s.ask ∧
      (kraken_on_message s now (some msg)).st.last_ts = some now ∧
      (kraken_on_message s now (some msg)).updated = true ∧
      (kraken_on_message s now (some msg)).raised = false := by
  unfold kraken_on_message
  simp only [h1, h2, h3, h4, h5, h6, h7, h8]
  rcases nb with _ | b <;> rcases na with _ | q <;> simp_all [Option.or]

theorem kraken_updated_last_ts (s : VenueState) (now : ℚ) (raw : Option Json) :
    (kraken_on_message s now raw).updated = true →
      (kraken_on_message s now raw).st.last_ts = some now := by
  unfold kraken_on_message kraken_elif
  cases raw with
  | none => intro h; simp at h
  | some msg =>
    dsimp only
    repeat' split
    all_goals intro h
    all_goals (first | rfl | simp_all)

theorem cb_tickers_loop_pres :
    ∀ (ts : List Json) (a : HandleResult),
      (cb_tickers_loop a ts).st.last_ts = a.st.last_ts ∧
        (cb_tickers_loop a ts).st.connected = a.st.connected := by
  intro ts
  induction ts with
  | nil => intro a; exact ⟨rfl, rfl⟩
  | cons t rest ih =>
    intro a
    unfold cb_tickers_loop
    cases h1 : pyGet t "best_bid" with
    | error e => exact ⟨rfl, rfl⟩
    | ok bid =>
      dsimp only
      cases h2 : pyGet t "best_ask" with
      | error e => exact ⟨rfl, rfl⟩
      | ok ask =>
        dsimp only
        have hat : (cb_apply_tick a bid ask).st.last_ts = a.st.last_ts ∧
            (cb_apply_tick a bid ask).st.connected = a.st.connected := by
          unfold cb_apply_tick
          repeat' split
          all_goals exact ⟨rfl, rfl⟩
        exact ⟨(ih _).1.trans hat.1, (ih _).2.trans hat.2⟩

theorem cb_events_loop_pres :
    ∀ (evs : List Json) (a : HandleResult),
      (cb_events_loop a evs).st.last_ts = a.st.last_ts ∧
        (cb_events_loop a evs).st.connected = a.st.connected := by
  intro evs
  induction evs with
  | nil => intro a; exact ⟨rfl, rfl⟩
  | cons ev rest ih =>
    intro a
    unfold cb_events_loop
    cases h1 : pyIn "tickers" ev with
    | error e => exact ⟨rfl, rfl⟩
    | ok hasT =>
      cases hasT with
      | true =>
        dsimp only
        rw [if_pos rfl]
        cases h2 : pySub ev "tickers" with
        | error e => exact ⟨rfl, rfl⟩
        | ok tks =>
          dsimp only
          cases h3 : pyIter tks with
          | error e => exact ⟨rfl, rfl⟩
          | ok ts =>
            dsimp only
            split
            · exact cb_tickers_loop_pres ts a
            · exact ⟨(ih _).1.trans (cb_tickers_loop_pres ts a).1,
                (ih _).2.trans (cb_tickers_loop_pres ts a).2⟩
      | false =>
        dsimp only
        rw [if_neg Bool.false_ne_true]
        cases h2 : pyGet ev "best_bid" with
        | error e => exact ⟨rfl, rfl⟩
        | ok bid =>
          dsimp only
          cases h3 : pyGet ev "best_ask" with
          | error e => exact ⟨rfl, rfl⟩
          | ok ask =>
            dsimp only
            have hat : (cb_apply_tick a bid ask).st.last_ts = a.st.last_ts ∧
                (cb_apply_tick a bid ask).st.connected = a.st.connected := by
              unfold cb_apply_tick
              repeat' split
              all_goals exact ⟨rfl, rfl⟩
            exact ⟨(ih _).1.trans hat.1, (ih _).2.trans hat.2⟩

theorem coinbase_updated_last_ts (s : VenueState) (now : ℚ) (raw : Option Json) :
    (coinbase_on_message s now raw).raised = false →
      (coinbase_on_message s now raw).updated = true →
      (coinbase_on_message s now raw).st.last_ts = some now := by
  unfold coinbase_on_message coinbase_elif
  cases raw with
  | none => intro _ h; simp at h
  | some msg =>
    dsimp only
    repeat' split
    all_goals intro h1 h2
    all_goals (first | rfl | simp_all)

theorem kraken_last_ts_step (s : VenueState) (now : ℚ) (raw : Option Json) :
    (kraken_on_message s now raw).st.last_ts = s.last_ts ∨
      (kraken_on_message s now raw).st.last_ts = some now := by
  unfold kraken_on_message kraken_elif
  cases raw with
  | none => exact Or.inl rfl
  | some msg =>
    dsimp only
    repeat' split
    all_goals (first | exact Or.inl rfl | exact Or.inr rfl)

theorem coinbase_last_ts_step (s : VenueState) (now : ℚ) (raw : Option Json) :
    (coinbase_on_message s now raw).st.last_ts = s.last_ts ∨
      (coinbase_on_message s now raw).st.last_ts = some now := by
  unfold coinbase_on_message coinbase_elif
  cases raw with
  | none => exact Or.inl rfl
  | some msg =>
    dsimp only
    repeat' split
    all_goals (first
      | exact Or.inl rfl
      | exact Or.inr rfl
      | exact Or.inl (cb_events_loop_pres _ _).1)



/-- Ordering on optional timestamps: absent precedes everything; once
set, the value must not decrease. -/
def tsLE : Option ℚ → Option ℚ → Prop
  | none, _ => True
  | some _, none => False
  | some a, some b => a ≤ b

theorem tsLE_refl (o : Option ℚ) : tsLE o o := by
  cases o <;> simp [tsLE]

/-- The successive venue states a connector's receive loop writes,
given the (time, decoded frame) sequence it consumes; the loop stops
at a raising frame (the connection then reconnects). -/
def conn_states (step : VenueState → ℚ → Option Json → HandleResult) (s : VenueState) :
    List (ℚ × Option Json) → List VenueState
  | [] => []
  | (t, raw) :: rest =>
    let r := step s t raw
    r.st :: (if r.raised then [] else conn_states step r.st rest)

theorem conn_states_chain (step : VenueState → ℚ → Option Json → HandleResult)
    (hstep : ∀ s t raw, (step s t raw).st.last_ts = s.last_ts ∨
      (step s t raw).st.last_ts = some t) :
    ∀ (L : List (ℚ × Option Json)) (s : VenueState),
      L.Pairwise (fun p q => p.1 ≤ q.1) →
      (∀ p ∈ L, ∀ u, s.last_ts = some u → u ≤ p.1) →
      (s :: conn_states step s L).Chain' (fun a b => tsLE a.last_ts b.last_ts) := by
  intro L
  induction L with
  | nil => intro s _ _; simp [conn_states]
  | cons p rest ih =>
    intro s hmono hinit
    obtain ⟨t, raw⟩ := p
    have hrel : tsLE s.last_ts (step s t raw).st.last_ts := by
      rcases hstep s t raw with h | h <;> rw [h]
      · exact tsLE_refl _
      · cases hu : s.last_ts with
        | none => simp [tsLE]
        | some u =>
          simp only [tsLE]
          exact hinit (t, raw) (List.mem_cons_self _ _) u hu
    have hinit2 : ∀ p ∈ rest, ∀ u, (step s t raw).st.last_ts = some u → u ≤ p.1 := by
      intro q hq u hu
      rcases hstep s t raw with h | h
      · exact hinit q (List.mem_cons_of_mem _ hq) u (h ▸ hu)
      · rw [h] at hu
        rw [Option.some.injEq] at hu
        subst hu
        exact (List.pairwise_cons.mp hmono).1 q hq
    rw [show conn_states step s ((t, raw) :: rest) =
        (step s t raw).st ::
          (if (step s t raw).raised then [] else conn_states step (step s t raw).st rest)
        from rfl]
    by_cases hr : (step s t raw).raised
    · rw [if_pos hr]
      exact List.chain'_cons.mpr ⟨hrel, List.chain'_singleton _⟩
    · rw [if_neg hr]
      exact List.chain'_cons.mpr
        ⟨hrel, ih (step s t raw).st (List.pairwise_cons.mp hmono).2 hinit2⟩



def kraken_run_count (s : VenueState) : List (ℚ × Option Json) → VenueState × ℕ
  | [] => (s, 0)
  | (t, raw) :: rest =>
    let r := kraken_on_message s t raw
    if r.raised then (r.st, if r.updated then 1 else 0)
    else
      let o := kraken_run_count r.st rest
      (o.1, (if r.updated then 1 else 0) + o.2)

/-- C7 fails as stated: (a) an undecodable frame increments the Kraken
msgs counter although it is not a successful parsed update (so
messageCount counts all inbound messages, not successful updates), and
(b) a Coinbase message whose first event parses and whose second event
raises leaves bid/ask freshly written but last_ts NOT set to the
current time. -/
theorem C7_counterexample :
    ((kraken_run_count VenueState.init [(7, none)]).1.msgs = 1 ∧
      (kraken_run_count VenueState.init [(7, none)]).2 = 0) ∧
    ((coinbase_on_message VenueState.init 7
        (some (Json.obj [("channel", Json.str "ticker"),
          ("events", Json.arr [Json.obj [("best_bid", Json.str "1"),
            ("best_ask", Json.str "2")], Json.num 42])]))).st.bid = some 1 ∧
      (coinbase_on_message VenueState.init 7
        (some (Json.obj [("channel", Json.str "ticker"),
          ("events", Json.arr [Json.obj [("best_bid", Json.str "1"),
            ("best_ask", Json.str "2")], Json.num 42])]))).st.ask = some 2 ∧
      (coinbase_on_message VenueState.init 7
        (some (Json.obj [("channel", Json.str "ticker"),
          ("events", Json.arr [Json.obj [("best_bid", Json.str "1"),
            ("best_ask", Json.str "2")], Json.num 42])]))).raised = true ∧
      (coinbase_on_message VenueState.init 7
        (some (Json.obj [("channel", Json.str "ticker"),
          ("events", Json.arr [Json.obj [("best_bid", Json.str "1"),
            ("best_ask", Json.str "2")], Json.num 42])]))).st.last_ts = none) := by
  refine ⟨⟨?_, ?_⟩, ?_, ?_, ?_, ?_⟩
  · with_unfolding_all rfl
  · with_unfolding_all rfl
  · with_unfolding_all rfl
  · with_unfolding_all rfl
  · with_unfolding_all rfl
  · with_unfolding_all rfl

/-- C4 fails as stated: a Coinbase ticker whose best_bid parses but
whose best_ask does not is logged and the connection continues, yet
the stored quote is NOT left unchanged — the bid has already been
overwritten (99 became 100.5) when the float failure is caught. -/
theorem C4_counterexample :
    (coinbase_on_message ⟨some 99, some 98, some 1, 10, true⟩ 7
        (some (Json.obj [("channel", Json.str "ticker"),
          ("events", Json.arr [Json.obj [("best_bid", Json.str "100.5"),
            ("best_ask", Json.str "abc")]])]))).st.bid = some (201 / 2) ∧
      (coinbase_on_message ⟨some 99, some 98, some 1, 10, true⟩ 7
        (some (Json.obj [("channel", Json.str "ticker"),
          ("events", Json.arr [Json.obj [("best_bid", Json.str "100.5"),
            ("best_ask", Json.str "abc")]])]))).raised = false ∧
      (coinbase_on_message ⟨some 99, some 98, some 1, 10, true⟩ 7
        (some (Json.obj [("channel", Json.str "ticker"),
          ("events", Json.arr [Json.obj [("best_bid", Json.str "100.5"),
            ("best_ask", Json.str "abc")]])]))).logs = [ConnLog.parseFail] ∧
      ¬ (coinbase_on_message ⟨some 99, some 98, some 1, 10, true⟩ 7
        (some (Json.obj [("channel", Json.str "ticker"),
          ("events", Json.arr [Json.obj [("best_bid", Json.str "100.5"),
            ("best_ask", Json.str "abc")]])]))).st.bid = some 99 := by
  have h : (coinbase_on_message ⟨some 99, some 98, some 1, 10, true⟩ 7
      (some (Json.obj [("channel", Json.str "ticker"),
        ("events", Json.arr [Json.obj [("best_bid", Json.str "100.5"),
          ("best_ask", Json.str "abc")]])]))).st.bid = some (201 / 2) := by
    with_unfolding_all rfl
  refine ⟨h, by with_unfolding_all rfl, by with_unfolding_all rfl, ?_⟩
  rw [h]
  intro heq
  rw [Option.some.injEq] at heq
  norm_num at heq

theorem kraken_no_update_quote (s : VenueState) (now : ℚ) (raw : Option Json)
    (h : (kraken_on_message s now raw).updated = false) :
    (kraken_on_message s now raw).st.bid = s.bid ∧
      (kraken_on_message s now raw).st.ask = s.ask ∧
      (kraken_on_message s now raw).st.last_ts = s.last_ts := by
  unfold kraken_on_message kraken_elif at h ⊢
  cases raw with
  | none => exact ⟨rfl, rfl, rfl⟩
  | some msg =>
    dsimp only at h ⊢
    repeat' split at h
    all_goals first
      | exact ⟨rfl, rfl, rfl⟩
      | simp_all

theorem kraken_no_levels_skip (s : VenueState) (now : ℚ)
    (msg dataJ ob bids asks : Json)
    (h1 : pyIn "data" msg = .ok true) (h2 : pySub msg "data" = .ok dataJ)
    (h3 : truthy dataJ = true) (h4 : pyIndex0 dataJ = .ok ob)
    (h5 : pyGetD ob "bids" (.arr []) = .ok bids)
    (h6 : pyGetD ob "asks" (.arr []) = .ok asks)
    (h7 : top_price bids = .ok none) (h8 : top_price asks = .ok none) :
    (kraken_on_message s now (some msg)).st.bid = s.bid ∧
      (kraken_on_message s now (some msg)).st.ask = s.ask ∧
      (kraken_on_message s now (some msg)).st.last_ts = s.last_ts ∧
      (kraken_on_message s now (some msg)).raised = false ∧
      (kraken_on_message s now (some msg)).logs = [ConnLog.noLevels] := by
  unfold kraken_on_message
  simp only [h1, h2, h3, h4, h5, h6, h7, h8]
  simp

theorem kraken_bad_price_raises (s : VenueState) (now : ℚ)
    (msg dataJ ob bids asks : Json)
    (h1 : pyIn "data" msg = .ok true) (h2 : pySub msg "data" = .ok dataJ)
    (h3 : truthy dataJ = true) (h4 : pyIndex0 dataJ = .ok ob)
    (h5 : pyGetD ob "bids" (.arr []) = .ok bids)
    (h6 : pyGetD ob "asks" (.arr []) = .ok asks)
    (h7 : top_price bids = .error () ∨
      (∃ nb, top_price bids = .ok nb ∧ top_price asks = .error ())) :
    (kraken_on_message s now (some msg)).raised = true := by
  unfold kraken_on_message
  rcases h7 with h7 | ⟨nb, h7, h8⟩
  · simp only [h1, h2, h3, h4, h5, h6, h7]
    simp
  · simp only [h1, h2, h3, h4, h5, h6, h7, h8]
    simp

theorem cb_tick_skip (a : HandleResult) (bid ask : Json)
    (h : (truthy bid && truthy ask) = false) :
    cb_apply_tick a bid ask = a := by
  unfold cb_apply_tick
  rw [h]
  rfl

theorem cb_tick_bid_unparseable (a : HandleResult) (bid ask : Json)
    (hb : truthy bid = true) (ha : truthy ask = true) (hq : pyFloat bid = none) :
    cb_apply_tick a bid ask = {a with logs := a.logs ++ [ConnLog.parseFail]} := by
  unfold cb_apply_tick
  rw [hb, ha, hq]
  rfl

theorem cb_tick_partial_write (a : HandleResult) (bid ask : Json) (qb : ℚ)
    (hb : truthy bid = true) (ha : truthy ask = true)
    (hqb : pyFloat bid = some qb) (hqa : pyFloat ask = none) :
    cb_apply_tick a bid ask =
      {a with
        st := {a.st with bid := some qb},
        logs := a.logs ++ [ConnLog.parseFail]} := by
  unfold cb_apply_tick
  rw [hb, ha, hqb, hqa]
  rfl

theorem coinbase_last_ts_cases (s : VenueState) (now : ℚ) (raw : Option Json) :
    (coinbase_on_message s now raw).st.last_ts = s.last_ts ∨
      ((coinbase_on_message s now raw).st.last_ts = some now ∧
        (coinbase_on_message s now raw).raised = false ∧
        (coinbase_on_message s now raw).updated = true) := by
  cases raw with
  | none => exact Or.inl rfl
  | some msg =>
    unfold coinbase_on_message
    dsimp only
    cases h1 : pyGet msg "channel" with
    | error e => exact Or.inl rfl
    | ok ch =>
      dsimp only
      cases h2 : pyIn "events" msg with
      | error e => exact Or.inl rfl
      | ok hasEv =>
        dsimp only
        by_cases hc : (eqStr ch "ticker" && hasEv) = true
        · rw [if_pos hc]
          cases h3 : pySub msg "events" with
          | error e => exact Or.inl rfl
          | ok evJ =>
            dsimp only
            cases h4 : pyIter evJ with
            | error e => exact Or.inl rfl
            | ok evs =>
              dsimp only
              split
              · exact Or.inl (cb_events_loop_pres _ _).1
              · split
                · exact Or.inr ⟨rfl, rfl, rfl⟩
                · exact Or.inl (cb_events_loop_pres _ _).1
        · rw [if_neg hc]
          unfold coinbase_elif
          cases h5 : pyGet msg "type" with
          | error e => exact Or.inl rfl
          | ok t =>
            dsimp only
            split
            · exact Or.inl rfl
            · exact Or.inl rfl

/-- C4 amended: undecodable JSON leaves the venue quote (bid, ask,
last_ts) unchanged, is logged, and the connector keeps consuming;
frames of unexpected top-level type raise out of the receive loop
(terminating the connection) with the quote still unchanged; any
Kraken frame that performs no update — raising or not — leaves the
quote unchanged, a structurally expected Kraken data packet without
usable price levels is logged and skipped, while one with an
unparseable price level raises out of the loop; a Coinbase event
lacking a truthy best_bid or best_ask is skipped silently (no log, no
change), an unparseable best_bid is logged with the quote unchanged,
and a parseable best_bid with an unparseable best_ask is logged but
leaves the bid freshly written (the counterexample); Coinbase
last_ts changes only when a message completes without raising and
performed an update. -/
theorem C4_malformed_message_handling :
    (∀ (s : VenueState) (now : ℚ),
      ((kraken_on_message s now none).st.bid = s.bid ∧
        (kraken_on_message s now none).st.ask = s.ask ∧
        (kraken_on_message s now none).st.last_ts = s.last_ts ∧
        (kraken_on_message s now none).raised = false ∧
        (kraken_on_message s now none).logs = [ConnLog.decodeErr]) ∧
      ((coinbase_on_message s now none).st.bid = s.bid ∧
        (coinbase_on_message s now none).st.ask = s.ask ∧
        (coinbase_on_message s now none).st.last_ts = s.last_ts ∧
        (coinbase_on_message s now none).raised = false ∧
        (coinbase_on_message s now none).logs = [ConnLog.decodeErr]) ∧
      ((kraken_on_message s now (some (Json.num 42))).st.bid = s.bid ∧
        (kraken_on_message s now (some (Json.num 42))).st.ask = s.ask ∧
        (kraken_on_message s now (some (Json.num 42))).st.last_ts = s.last_ts ∧
        (kraken_on_message s now (some (Json.num 42))).raised = true) ∧
      ((coinbase_on_message s now (some (Json.num 42))).st.bid = s.bid ∧
        (coinbase_on_message s now (some (Json.num 42))).st.ask = s.ask ∧
        (coinbase_on_message s now (some (Json.num 42))).st.last_ts = s.last_ts ∧
        (coinbase_on_message s now (some (Json.num 42))).raised = true)) ∧
    (∀ (s : VenueState) (now : ℚ) (raw : Option Json),
      (kraken_on_message s now raw).updated = false →
        (kraken_on_message s now raw).st.bid = s.bid ∧
        (kraken_on_message s now raw).st.ask = s.ask ∧
        (kraken_on_message s now raw).st.last_ts = s.last_ts) ∧
    (∀ (s : VenueState) (now : ℚ) (msg dataJ ob bids asks : Json),
      pyIn "data" msg = .ok true → pySub msg "data" = .ok dataJ →
      truthy dataJ = true → pyIndex0 dataJ = .ok ob →
      pyGetD ob "bids" (.arr []) = .ok bids → pyGetD ob "asks" (.arr []) = .ok asks →
      top_price bids = .ok none → top_price asks = .ok none →
      (kraken_on_message s now (some msg)).st.bid = s.bid ∧
        (kraken_on_message s now (some msg)).st.ask = s.ask ∧
        (kraken_on_message s now (some msg)).st.last_ts = s.last_ts ∧
        (kraken_on_message s now (some msg)).raised = false ∧
        (kraken_on_message s now (some msg)).logs = [ConnLog.noLevels]) ∧
    (∀ (s : VenueState) (now : ℚ) (msg dataJ ob bids asks : Json),
      pyIn "data" msg = .ok true → pySub msg "data" = .ok dataJ →
      truthy dataJ = true → pyIndex0 dataJ = .ok ob →
      pyGetD ob "bids" (.arr []) = .ok bids → pyGetD ob "asks" (.arr []) = .ok asks →
      (top_price bids = .error () ∨
        (∃ nb, top_price bids = .ok nb ∧ top_price asks = .error ())) →
      (kraken_on_message s now (some msg)).raised = true) ∧
    (∀ (a : HandleResult) (bid ask : Json),
      (truthy bid && truthy ask) = false → cb_apply_tick a bid ask = a) ∧
    (∀ (a : HandleResult) (bid ask : Json),
      truthy bid = true → truthy ask = true → pyFloat bid = none →
      cb_apply_tick a bid ask = {a with logs := a.logs ++ [ConnLog.parseFail]}) ∧
    (∀ (a : HandleResult) (bid ask : Json) (qb : ℚ),
      truthy bid = true → truthy ask = true →
      pyFloat bid = some qb → pyFloat ask = none →
      cb_apply_tick a bid ask =
        {a with
          st := {a.st with bid := some qb},
          logs := a.logs ++ [ConnLog.parseFail]}) ∧
    (∀ (s : VenueState) (now : ℚ) (raw : Option Json),
      (coinbase_on_message s now raw).st.last_ts = s.last_ts ∨
        ((coinbase_on_message s now raw).st.last_ts = some now ∧
          (coinbase_on_message s now raw).raised = false ∧
          (coinbase_on_message s now raw).updated = true)) := by
  exact ⟨fun s now => ⟨⟨rfl, rfl, rfl, rfl, rfl⟩, ⟨rfl, rfl, rfl, rfl, rfl⟩,
      ⟨rfl, rfl, rfl, rfl⟩, ⟨rfl, rfl, rfl, rfl⟩⟩,
    kraken_no_update_quote, kraken_no_levels_skip, kraken_bad_price_raises,
    cb_tick_skip, cb_tick_bid_unparseable, cb_tick_partial_write,
    coinbase_last_ts_cases⟩

/-- Witness for C4 at concrete inputs: a Kraken data packet with an
unparseable price level ("abc") raises out of the receive loop; a
data packet without usable levels is logged and skipped; a Coinbase
event lacking best_ask is skipped silently. -/
theorem C4_malformed_message_handling_witness :
    (kraken_on_message VenueState.init 7
        (some (Json.obj [("data", Json.arr [Json.obj
          [("bids", Json.arr [Json.obj [("price", Json.str "abc")]]),
           ("asks", Json.arr [])]])]))).raised = true ∧
      (kraken_on_message VenueState.init 7
        (some (Json.obj [("data", Json.arr [Json.obj []])]))).logs =
        [ConnLog.noLevels] ∧
      cb_apply_tick ⟨VenueState.init, [], false, false⟩ (Json.str "1") Json.null =
        ⟨VenueState.init, [], false, false⟩ := by
  refine ⟨?_, ?_, ?_⟩
  · exact C4_malformed_message_handling.2.2.2.1 VenueState.init 7
      (Json.obj [("data", Json.arr [Json.obj
        [("bids", Json.arr [Json.obj [("price", Json.str "abc")]]),
         ("asks", Json.arr [])]])])
      (Json.arr [Json.obj
        [("bids", Json.arr [Json.obj [("price", Json.str "abc")]]),
         ("asks", Json.arr [])]])
      (Json.obj
        [("bids", Json.arr [Json.obj [("price", Json.str "abc")]]),
         ("asks", Json.arr [])])
      (Json.arr [Json.obj [("price", Json.str "abc")]])
      (Json.arr [])
      rfl rfl rfl rfl rfl rfl (Or.inl (by with_unfolding_all rfl))
  · exact (C4_malformed_message_handling.2.2.1 VenueState.init 7
      (Json.obj [("data", Json.arr [Json.obj []])])
      (Json.arr [Json.obj []]) (Json.obj []) (Json.arr []) (Json.arr [])
      rfl rfl rfl rfl rfl rfl rfl rfl).2.2.2.2
  · exact C4_malformed_message_handling.2.2.2.2.1
      ⟨VenueState.init, [], false, false⟩ (Json.str "1") Json.null rfl




/-- C7 amended: every inbound frame increments msgs by exactly one
(regardless of parse outcome); a successful Kraken data parse stores
exactly the parsed top prices (for whichever sides were present) and
stamps last_ts with the current time; a successful Coinbase ticker
parse stores both parsed prices; when a Coinbase message completes
without raising and performed an update, last_ts is stamped; and over
any run with non-decreasing frame times, last_ts is non-decreasing
for both connectors. -/
theorem C7_message_side_effects :
    (∀ (s : VenueState) (now : ℚ) (raw : Option Json),
        (kraken_on_message s now raw).st.msgs = s.msgs + 1 ∧
        (coinbase_on_message s now raw).st.msgs = s.msgs + 1) ∧
    (∀ (s : VenueState) (now : ℚ) (msg dataJ ob bids asks : Json) (nb na : Option ℚ),
        pyIn "data" msg = .ok true → pySub msg "data" = .ok dataJ →
        truthy dataJ = true → pyIndex0 dataJ = .ok ob →
        pyGetD ob "bids" (.arr []) = .ok bids →
        pyGetD ob "asks" (.arr []) = .ok asks →
        top_price bids = .ok nb → top_price asks = .ok na →
        (nb.isSome || na.isSome) = true →
        (kraken_on_message s now (some msg)).st.bid = nb.or s.bid ∧
          (kraken_on_message s now (some msg)).st.ask = na.or s.ask ∧
          (kraken_on_message s now (some msg)).st.last_ts = some now) ∧
    (∀ (a : HandleResult) (bid ask : Json) (qb qa : ℚ),
        truthy bid = true → truthy ask = true →
        pyFloat bid = some qb → pyFloat ask = some qa →
        cb_apply_tick a bid ask =
          {a with st := {a.st with bid := some qb, ask := some qa}, updated := true}) ∧
    (∀ (s : VenueState) (now : ℚ) (raw : Option Json),
        (kraken_on_message s now raw).updated = true →
          (kraken_on_message s now raw).st.last_ts = some now) ∧
    (∀ (s : VenueState) (now : ℚ) (raw : Option Json),
        (coinbase_on_message s now raw).raised = false →
          (coinbase_on_message s now raw).updated = true →
          (coinbase_on_message s now raw).st.last_ts = some now) ∧
    (∀ (L : List (ℚ × Option Json)) (s : VenueState),
        L.Pairwise (fun p q => p.1 ≤ q.1) →
        (∀ p ∈ L, ∀ u, s.last_ts = some u → u ≤ p.1) →
        (s :: conn_states kraken_on_message s L).Chain'
            (fun a b => tsLE a.last_ts b.last_ts) ∧
          (s :: conn_states coinbase_on_message s L).Chain'
            (fun a b => tsLE a.last_ts b.last_ts)) := by
  refine ⟨fun s now raw => ⟨kraken_msgs s now raw, coinbase_msgs s now raw⟩,
    ?_, cb_apply_tick_eq, kraken_updated_last_ts, coinbase_updated_last_ts, ?_⟩
  · intro s now msg dataJ ob bids asks nb na h1 h2 h3 h4 h5 h6 h7 h8 h9
    have h := kraken_update_eq s now msg dataJ ob bids asks nb na h1 h2 h3 h4 h5 h6 h7 h8 h9
    exact ⟨h.1, h.2.1, h.2.2.1⟩
  · intro L s hmono hinit
    exact ⟨conn_states_chain kraken_on_message kraken_last_ts_step L s hmono hinit,
      conn_states_chain coinbase_on_message coinbase_last_ts_step L s hmono hinit⟩

/-- Witness for C7 at a concrete well-formed Kraken book update:
bid 100.10 (string form), ask 100.2 (number form) are stored and
last_ts is stamped with the tick time 7. -/
theorem C7_message_side_effects_witness :
    (kraken_on_message VenueState.init 7
        (some (Json.obj [("data", Json.arr [Json.obj
          [("bids", Json.arr [Json.obj [("price", Json.str "100.10"), ("qty", Json.num 1)]]),
           ("asks", Json.arr [Json.obj [("price", Json.num 100.2)]])]])]))).st.bid =
      some (1001 / 10) ∧
    (kraken_on_message VenueState.init 7
        (some (Json.obj [("data", Json.arr [Json.obj
          [("bids", Json.arr [Json.obj [("price", Json.str "100.10"), ("qty", Json.num 1)]]),
           ("asks", Json.arr [Json.obj [("price", Json.num 100.2)]])]])]))).st.ask =
      some (501 / 5) ∧
    (kraken_on_message VenueState.init 7
        (some (Json.obj [("data", Json.arr [Json.obj
          [("bids", Json.arr [Json.obj [("price", Json.str "100.10"), ("qty", Json.num 1)]]),
           ("asks", Json.arr [Json.obj [("price", Json.num 100.2)]])]])]))).st.last_ts =
      some 7 := by
  have h := C7_message_side_effects.2.1 VenueState.init 7
    (Json.obj [("data", Json.arr [Json.obj
      [("bids", Json.arr [Json.obj [("price", Json.str "100.10"), ("qty", Json.num 1)]]),
       ("asks", Json.arr [Json.obj [("price", Json.num 100.2)]])]])])
    (Json.arr [Json.obj
      [("bids", Json.arr [Json.obj [("price", Json.str "100.10"), ("qty", Json.num 1)]]),
       ("asks", Json.arr [Json.obj [("price", Json.num 100.2)]])]])
    (Json.obj
      [("bids", Json.arr [Json.obj [("price", Json.str "100.10"), ("qty", Json.num 1)]]),
       ("asks", Json.arr [Json.obj [("price", Json.num 100.2)]])])
    (Json.arr [Json.obj [("price", Json.str "100.10"), ("qty", Json.num 1)]])
    (Json.arr [Json.obj [("price", Json.num 100.2)]])
    (some (1001 / 10)) (some (501 / 5))
    rfl rfl rfl rfl rfl rfl
    (by with_unfolding_all rfl) (by with_unfolding_all rfl) rfl
  exact ⟨h.1, h.2.1, h.2.2⟩



/-- C10 fails as stated: (a) when the Kraken fee endpoint answers
with a JSON body that is not an object (here an empty array), js.get
raises AttributeError out of get_fees — no defaults are stored or
returned, although the lookup plainly failed; (b) a credential
problem that only surfaces in the signing step — CoinbaseAdvAuth
passes from_env with a PEM present but CB_ADV_API_KEY unset, and
auth.sign's _require (fees.py line 152, outside the try) raises
RuntimeError — likewise escapes get_fees with nothing cached, even
though the HTTP call was never made. -/
theorem C10_counterexample :
    get_fees (FeeCacheSt.init 3600) 100 "kraken" "BTC/USD"
        (Except.ok ()) (Except.ok ()) (Except.ok (Json.arr [])) = Except.error () ∧
      get_fees (FeeCacheSt.init 3600) 100 "coinbase" "BTC-USD"
        (Except.ok ()) (Except.error ()) (Except.ok (Json.obj [])) = Except.error () := by
  constructor
  · with_unfolding_all rfl
  · with_unfolding_all rfl

theorem get_fees_fetched_eq (st : FeeCacheSt) (now : ℚ) (exchange pair : String)
    (auth sign : Except Unit Unit) (http : Except Unit Json) (f : Fees) (st2 : FeeCacheSt)
    (h : get_fees st now exchange pair auth sign http = .ok (f, st2, true)) :
    st2 = set_cached st now (exchange.toLower, pair) f := by
  unfold get_fees at h
  dsimp only at h
  rcases hcv : get_cached st now (exchange.toLower, pair) with _ | cached
  · rw [hcv] at h
    dsimp only at h
    split_ifs at h with he1 he2
    · rcases hk : kraken_fees pair auth sign http with e | fees
      · rw [hk] at h
        simp at h
      · rw [hk] at h
        simp only [Except.ok.injEq, Prod.mk.injEq] at h
        obtain ⟨h1, h2, -⟩ := h
        subst h1
        exact h2.symm
    · rcases hk : coinbase_adv_fees auth sign http with e | fees
      · rw [hk] at h
        simp at h
      · rw [hk] at h
        simp only [Except.ok.injEq, Prod.mk.injEq] at h
        obtain ⟨h1, h2, -⟩ := h
        subst h1
        exact h2.symm
  · rw [hcv] at h
    simp at h

theorem get_cached_after_store (st : FeeCacheSt) (now now2 : ℚ)
    (key : String × String) (f : Fees) (hlt : now2 - now < st.ttl) :
    get_cached (set_cached st now key f) now2 key = some f := by
  unfold get_cached set_cached
  simp only [List.lookup, beq_self_eq_true]
  dsimp only
  rw [if_pos hlt]



/-- C10 amended: for every failure mode caught inside the fetchers —
from_env raising on missing credentials, HTTP error or undecodable
body, an error payload, unparseable or missing fee fields, a non-dict
fee_tier — the venue fetchers return the hardcoded defaults; get_fees
stores whatever a fetch returns in the TTL cache under (exchange,
pair); and any later call with the same key within the TTL answers
from the cache without fetching. However, a failure in the signing
step (auth.trade_volume for Kraken, auth.api_url/auth.sign for
Coinbase — both outside the try, e.g. an invalid base64 Kraken
secret, or a Coinbase PEM present with CB_ADV_API_KEY unset), like a
non-object JSON body, raises out of get_fees and caches nothing (see
the counterexample). -/
theorem C10_fee_fallback_caching :
    (∀ (pair : String) (sign : Except Unit Unit) (http : Except Unit Json),
        kraken_fees pair (.error ()) sign http = .ok DEFAULT_FEES_kraken) ∧
    (∀ pair : String,
        kraken_fees pair (.ok ()) (.ok ()) (.error ()) = .ok DEFAULT_FEES_kraken) ∧
    (∀ (pair : String) (kvs : List (String × Json)),
        truthy ((kvs.lookup "error").getD .null) = true →
        kraken_fees pair (.ok ()) (.ok ()) (.ok (.obj kvs)) = .ok DEFAULT_FEES_kraken) ∧
    (∀ (pair : String) (kvs : List (String × Json)),
        truthy ((kvs.lookup "error").getD .null) = false →
        kraken_fee_pct ((kvs.lookup "result").getD (.obj [])) "fees" pair = none →
        kraken_fee_pct ((kvs.lookup "result").getD (.obj [])) "fees_maker" pair = none →
        kraken_fees pair (.ok ()) (.ok ()) (.ok (.obj kvs)) = .ok DEFAULT_FEES_kraken) ∧
    (∀ (sign : Except Unit Unit) (http : Except Unit Json),
        coinbase_adv_fees (.error ()) sign http = .ok DEFAULT_FEES_coinbase) ∧
    (coinbase_adv_fees (.ok ()) (.ok ()) (.error ()) = .ok DEFAULT_FEES_coinbase) ∧
    (∀ kvs : List (String × Json), kvs.lookup "fee_tier" = none →
        coinbase_adv_fees (.ok ()) (.ok ()) (.ok (.obj kvs)) = .ok DEFAULT_FEES_coinbase) ∧
    (∀ (pair : String) (http : Except Unit Json),
        kraken_fees pair (.ok ()) (.error ()) http = .error ()) ∧
    (∀ http : Except Unit Json,
        coinbase_adv_fees (.ok ()) (.error ()) http = .error ()) ∧
    (∀ (st : FeeCacheSt) (now : ℚ) (exchange pair : String) (auth sign : Except Unit Unit)
        (http : Except Unit Json) (f : Fees) (st2 : FeeCacheSt),
        get_fees st now exchange pair auth sign http = .ok (f, st2, true) →
        st2 = set_cached st now (exchange.toLower, pair) f) ∧
    (∀ (st : FeeCacheSt) (now now2 : ℚ) (exchange pair : String)
        (auth sign auth2 sign2 : Except Unit Unit) (http http2 : Except Unit Json)
        (f : Fees) (st2 : FeeCacheSt),
        get_fees st now exchange pair auth sign http = .ok (f, st2, true) →
        now2 - now < st.ttl →
        get_fees st2 now2 exchange pair auth2 sign2 http2 = .ok (f, st2, false)) := by
  refine ⟨fun pair sign http => rfl, fun pair => rfl, ?_, ?_, fun sign http => rfl, rfl,
    ?_, fun pair http => rfl, fun http => rfl, get_fees_fetched_eq, ?_⟩
  · intro pair kvs h
    unfold kraken_fees
    dsimp only
    rw [if_pos h]
  · intro pair kvs h1 h2 h3
    unfold kraken_fees
    dsimp only
    rw [if_neg ?_]
    · rw [h2, h3]
      rfl
    · rw [h1]
      simp
  · intro kvs h
    unfold coinbase_adv_fees
    dsimp only
    rw [h]
    rfl
  · intro st now now2 exchange pair auth sign auth2 sign2 http http2 f st2 h hlt
    have hst2 := get_fees_fetched_eq st now exchange pair auth sign http f st2 h
    subst hst2
    unfold get_fees
    dsimp only
    rw [get_cached_after_store st now now2 (exchange.toLower, pair) f hlt]

/-- Witness for C10: after a kraken lookup whose HTTP call failed
(defaults cached at t=100), a second call at t=200 answers the cached
defaults without querying the endpoint. -/
theorem C10_fee_fallback_caching_witness :
    get_fees
        (set_cached (FeeCacheSt.init 3600) 100 ("kraken", "BTC/USD") DEFAULT_FEES_kraken)
        200 "kraken" "BTC/USD" (Except.ok ()) (Except.ok ()) (Except.ok (Json.arr [])) =
      Except.ok (DEFAULT_FEES_kraken,
        set_cached (FeeCacheSt.init 3600) 100 ("kraken", "BTC/USD") DEFAULT_FEES_kraken,
        false) := by
  have h := C10_fee_fallback_caching.2.2.2.2.2.2.2.2.2.2 (FeeCacheSt.init 3600) 100 200
    "kraken" "BTC/USD" (Except.ok ()) (Except.ok ()) (Except.ok ()) (Except.ok ())
    (Except.error ()) (Except.ok (Json.arr [])) DEFAULT_FEES_kraken
    (set_cached (FeeCacheSt.init 3600) 100 ("kraken", "BTC/USD") DEFAULT_FEES_kraken)
    (by with_unfolding_all rfl) (by norm_num [FeeCacheSt.init])
  exact h

end SpreadSniffer
